import Mathlib

set_option maxRecDepth 20000

/-!
Verification of the script acquisition-and-execution pipeline of
`src/user_data.py` (an EC2 user-data bootstrap script).

The Python program is shallowly embedded: external effects (HTTP fetches,
JSON parsing by the standard library, subprocess execution) are supplied as
oracle functions in a `World` record; the process state touched by the
pipeline (environment variables, written files, the status report) is an
explicit `RunState` threaded through the pipeline functions, which mirror
the Python functions of the same names.  The bash argument-parsing preamble
that the program prepends to every downloaded script is embedded as well,
as a function over its argument list.
-/

namespace UserData

/-! ### Python dictionaries as insertion-ordered association lists -/

/-- `d[k]` / `d.get(k)`. -/
def lookupD {α : Type} : List (String × α) → String → Option α
  | [], _ => none
  | p :: ps, k => if p.1 == k then some p.2 else lookupD ps k

/-- `d[k] = v`: overwrite in place if the key exists (dict keys are unique),
else append, preserving insertion order. -/
def setD {α : Type} : List (String × α) → String → α → List (String × α)
  | [], k, v => [(k, v)]
  | p :: ps, k, v => if p.1 == k then (k, v) :: ps else p :: setD ps k v

/-! ### Python string primitives used by the program, at the character level -/

/-- Python `s.split("\n")`: split at every newline, keeping empty pieces;
the empty string splits to `[""]`. -/
def splitNl : List Char → List (List Char)
  | [] => [[]]
  | c :: cs =>
    if c = '\n' then [] :: splitNl cs
    else
      match splitNl cs with
      | [] => [[c]]
      | t :: ts => (c :: t) :: ts

/-- Python `"\n".join(parts)`. -/
def joinNl : List (List Char) → List Char
  | [] => []
  | [l] => l
  | l :: ls => l ++ '\n' :: joinNl ls

/-- Python `f.readlines()`: lines keep their terminating newline;
empty content yields no lines. -/
def readLines : List Char → List (List Char)
  | [] => []
  | c :: cs =>
    if c = '\n' then ['\n'] :: readLines cs
    else
      match readLines cs with
      | [] => [[c]]
      | t :: ts => (c :: t) :: ts

/-- Python `"".join(f.readlines()[:20])` (source lines 278-279 and 424-425). -/
def truncate20 (s : String) : String :=
  String.mk (((readLines s.data).take 20).flatten)

/-- Number of lines of a string, in Python `readlines` terms. -/
def numLines (s : String) : Nat := (readLines s.data).length

def startsWithL : List Char → List Char → Bool
  | _, [] => true
  | [], _ :: _ => false
  | c :: cs, p :: ps => c == p && startsWithL cs ps

/-- Python `pat in s` (substring containment), on character lists. -/
def hasSubL : List Char → List Char → Bool
  | [], pat => pat.isEmpty
  | c :: cs, pat => startsWithL (c :: cs) pat || hasSubL cs pat

/-- Python `pat in s` for strings. -/
def strContains (s pat : String) : Bool := hasSubL s.data pat.data

/-- Python `s.startswith(pat)` for strings. -/
def strStartsWith (s pat : String) : Bool := startsWithL s.data pat.data

/-- One step of Python `s.replace(pat, rep)` (leftmost-first, non-overlapping,
every occurrence).  The `Nat` is fuel, always run with `fuel = l.length`;
each step consumes at least one character, so the fuel never runs out. -/
def replaceFuel (pat rep : List Char) : Nat → List Char → List Char
  | _, [] => []
  | 0, l => l
  | fuel + 1, c :: cs =>
    if startsWithL (c :: cs) pat && !pat.isEmpty then
      rep ++ replaceFuel pat rep fuel (cs.drop (pat.length - 1))
    else c :: replaceFuel pat rep fuel cs

/-- Python `s.replace(pat, rep)` on character lists (nonempty `pat`). -/
def replaceL (l pat rep : List Char) : List Char := replaceFuel pat rep l.length l

/-- Python `s.replace(pat, rep)` for strings. -/
def pyReplace (s pat rep : String) : String := String.mk (replaceL s.data pat.data rep.data)

/-- ASCII uppercase of one character (`tr '[:lower:]' '[:upper:]'`). -/
def upperChar (c : Char) : Char :=
  if 'a' ≤ c && c ≤ 'z' then Char.ofNat (c.toNat - 32) else c

/-- ASCII lowercase of one character (Python `str.lower` on ASCII names). -/
def lowerChar (c : Char) : Char :=
  if 'A' ≤ c && c ≤ 'Z' then Char.ofNat (c.toNat + 32) else c

def isPySpace (c : Char) : Bool :=
  c == ' ' || c == '\t' || c == '\n' || c == '\r' || c == '\x0b' || c == '\x0c'

def splitWsAux : List Char → List Char → List (List Char)
  | [], acc => if acc.isEmpty then [] else [acc.reverse]
  | c :: cs, acc =>
    if isPySpace c then
      if acc.isEmpty then splitWsAux cs [] else acc.reverse :: splitWsAux cs []
    else splitWsAux cs (c :: acc)

/-- Python `s.split()` (no argument): split on whitespace runs, no empties. -/
def pySplitWs (s : String) : List String := (splitWsAux s.data []).map String.mk

/-- Python `s.strip()`. -/
def pyStrip (s : String) : String :=
  String.mk (((s.data.dropWhile isPySpace).reverse.dropWhile isPySpace).reverse)

/-- Python `s.split("\n")[0]`. -/
def pyFirstLine (s : String) : String := String.mk ((splitNl s.data).headD [])

/-- Python `s.split("\n", 1)[1]` for a string containing a newline:
everything after the first newline. -/
def dropFirstLine (s : String) : String := String.mk (joinNl (splitNl s.data).tail)

/-! ### The argument-parsing preamble (source lines 173-217, verbatim) -/

/-- The lines of the `param_helper` literal (source lines 173-217), in order;
the final empty piece carries the trailing newline. -/
def paramHelperParts : List (List Char) := [
  "#!/bin/bash".data,
  "# Parameter parsing helper".data,
  "parse_parameters() \x7b".data,
  "    # Initialize variables to default values".data,
  "    local params=()".data,
  "    ".data,
  "    # Loop through all command line arguments".data,
  "    while [[ $# -gt 0 ]]; do".data,
  "        key=\"$1\"".data,
  "        case $key in".data,
  "            --*) # Handle parameters in format --param-name value".data,
  "                param_name=\"$\x7bkey#--\x7d\"  # Remove -- prefix".data,
  "                param_name=\"$\x7bparam_name//-/_\x7d\"  # Convert hyphens to underscores".data,
  "                param_name=$(echo \"$param_name\" | tr \x27[:lower:]\x27 \x27[:upper:]\x27)  # Convert to uppercase".data,
  "                if [[ -z \"$2\" || \"$2\" == --* ]]; then".data,
  "                    # Parameter with no value (flag)".data,
  "                    declare -g \"$param_name\"=\"true\"".data,
  "                else".data,
  "                    # Parameter with value".data,
  "                    declare -g \"$param_name\"=\"$2\"".data,
  "                    shift  # Extra shift for the value".data,
  "                fi".data,
  "                ;;".data,
  "            *) # Collect positional parameters".data,
  "                params+=(\"$1\")".data,
  "                ;;".data,
  "        esac".data,
  "        shift".data,
  "    done".data,
  "    ".data,
  "    # Make positional parameters available as PARAM1, PARAM2, etc.".data,
  "    for i in \"$\x7b!params[@]\x7d\"; do".data,
  "        declare -g \"PARAM$((i+1))\"=\"$\x7bparams[$i]\x7d\"".data,
  "    done".data,
  "    ".data,
  "    # For backward compatibility".data,
  "    # If environment variables are set but not command line parameters, we still want to use them".data,
  "    # This enables both styles of passing parameters".data,
  "\x7d".data,
  "".data,
  "# Parse parameters automatically".data,
  "parse_parameters \"$@\"".data,
  "".data,
  "# Original script follows".data,
  "".data ]

/-- The bash `param_helper` text that `download_script` prepends: the parts
joined by newlines (so the text ends with a newline). -/
def paramHelper : String := String.mk (joinNl paramHelperParts)

/-- Artifact construction (source lines 219-231): preserve a leading shebang
of the fetched body, dropping the preamble's own shebang line. -/
def materializeBody (script_content : String) : String :=
  if strStartsWith script_content "#!" then
    let shebang_line := pyFirstLine script_content
    let rest_of_script := String.mk (joinNl (splitNl script_content.data).tail)
    let param_helper_without_shebang := dropFirstLine paramHelper
    shebang_line ++ "\n" ++ param_helper_without_shebang ++ rest_of_script
  else
    paramHelper ++ script_content

/-! ### Semantics of the preamble's `parse_parameters` bash function

The preamble parses the artifact's command line.  `bashDeclare` models
`declare -g <word>` after expansion and quote removal: bash splits the word
at its first `=` and assigns when the left part is a valid identifier. -/

def splitAtFirstEq : List Char → Option (List Char × List Char)
  | [] => none
  | c :: cs =>
    if c = '=' then some ([], cs)
    else (splitAtFirstEq cs).map (fun p => (c :: p.1, p.2))

def isBashNameStart (c : Char) : Bool := c.isAlpha || c == '_'

def isBashNameChar (c : Char) : Bool := c.isAlpha || c.isDigit || c == '_'

def isValidBashName : List Char → Bool
  | [] => false
  | c :: cs => isBashNameStart c && cs.all isBashNameChar

/-- `declare -g <word>`: assignments accumulate, later ones shadowing. -/
def bashDeclare (binds : List (String × String)) (w : String) : List (String × String) :=
  match splitAtFirstEq w.data with
  | none => binds
  | some (n, v) =>
    if isValidBashName n then binds ++ [(String.mk n, String.mk v)] else binds

/-- The value a bash variable holds after a sequence of declares. -/
def getVar (binds : List (String × String)) (n : String) : Option String :=
  (binds.reverse.find? (fun p => p.1 == n)).map (fun p => p.2)

/-- `--param-name` to `PARAM_NAME`: strip `--`, hyphens to underscores,
uppercase (preamble lines 184-186). -/
def flagVarName (key : String) : String :=
  String.mk ((replaceL (key.data.drop 2) ['-'] ['_']).map upperChar)

/-- The preamble's `while` loop over `"$@"` (preamble lines 180-201). -/
def parseLoop : List String → List (String × String) → List String →
    List (String × String) × List String
  | [], binds, pos => (binds, pos)
  | [key], binds, pos =>
    if strStartsWith key "--" then
      (bashDeclare binds (flagVarName key ++ "=true"), pos)
    else (binds, pos ++ [key])
  | key :: v :: rest, binds, pos =>
    if strStartsWith key "--" then
      if v == "" || strStartsWith v "--" then
        parseLoop (v :: rest) (bashDeclare binds (flagVarName key ++ "=true")) pos
      else
        parseLoop rest (bashDeclare binds (flagVarName key ++ "=" ++ v)) pos
    else
      parseLoop (v :: rest) binds (pos ++ [key])

/-- `parse_parameters "$@"`: flag parsing, then `PARAM1`, `PARAM2`, ... for
positionals (preamble lines 175-214). -/
def parse_parameters (tokens : List String) : List (String × String) :=
  let bp := parseLoop tokens [] []
  bp.2.enum.foldl
    (fun b p => bashDeclare b ("PARAM" ++ toString (p.1 + 1) ++ "=" ++ p.2)) bp.1

/-! ### Parameter binder and URL normalization -/

/-- Kebab-case conversion of a parameter name (source lines 256-258):
lowercase, then underscores to hyphens. -/
def kebabCase (s : String) : String :=
  String.mk (replaceL (s.data.map lowerChar) ['_'] ['-'])

/-- One command-line flag token, ` --param-name="value"` (source line 261). -/
def flagToken (param_name param_value : String) : String :=
  " --" ++ kebabCase param_name ++ "=\"" ++ param_value ++ "\""

/-- The parameter loop of `execute_script` (source lines 249-261): set each
parameter in the environment under its canonical name, and append its flag
token to the argument string. -/
def bindParams (env : List (String × String)) (params_map : List (String × String)) :
    List (String × String) × String :=
  params_map.foldl (fun acc p => (setD acc.1 p.1 p.2, acc.2 ++ flagToken p.1 p.2)) (env, "")

/-- GitHub browsable-page to raw-content URL conversion
(source lines 333-336); `str.replace` replaces every occurrence. -/
def convertGithubUrl (script_url : String) : String :=
  if script_url != "" && strContains script_url "github.com"
      && !(strContains script_url "raw.githubusercontent.com") then
    pyReplace (pyReplace script_url "github.com" "raw.githubusercontent.com") "/blob/" "/"
  else script_url

/-! ### The run model

External collaborators are oracles in `World`:
`fetch` is `urllib.request.urlopen(url).read().decode()` (`Except` carries the
exception text), `parseCatalog` / `parseParams` are `json.loads` on the
catalog / `--script-parameters` (with `none` for a `JSONDecodeError`; scalar
parameter values are modelled as the strings they are rendered to), and
`exec` is `run_command` — `subprocess.run(cmd, shell=True)` under the current
process environment; it catches every exception internally and returns a
result, so it is total.  `RunState` is the process state the pipeline
touches; `trace` additionally records every `run_command` invocation of a
script (its file path, argument string, and the environment it ran under),
in order. -/

structure ExecResult where
  stdout : String
  stderr : String
  exitCode : Int
deriving DecidableEq

structure World where
  fetch : String → Except String String
  parseCatalog : String → Option (List (String × String))
  parseParams : String → Option (List (String × List (String × String)))
  exec : String → List (String × String) → ExecResult

structure TraceEntry where
  file : String
  argStr : String
  env : List (String × String)
deriving DecidableEq

/-- One entry of `script_status_report["scripts"]` (or `["init_script"]`);
timestamps are not modelled. -/
structure ScriptRecord where
  status : String
  error : Option String := none
  exit_code : Option Int := none
  output : Option String := none
deriving DecidableEq

structure RunState where
  env : List (String × String)
  files : List (String × String)
  scripts : List (String × ScriptRecord)
  repository_status : Option String := none
  init_record : Option ScriptRecord := none
  trace : List TraceEntry := []
deriving DecidableEq

/-- The parsed command line (argparse defaults from source lines 15-25). -/
structure Args where
  instance_name : String := ""
  environment : String := ""
  scripts_repository_url : String := ""
  script_aliases : String := ""
  script_parameters : String := "\x7b\x7d"
  webhook_url : String := ""
  init_script : String := ""

/-- `download_repository` (source lines 139-161): fetch, persist verbatim,
then parse; a parse failure downgrades the already-recorded "success". -/
def download_repository (w : World) (url : String) (st : RunState) :
    Option (List (String × String)) × RunState :=
  match w.fetch url with
  | .error _ => (none, { st with repository_status := some "failed" })
  | .ok content =>
    let st1 := { st with
      files := setD st.files "/tmp/scripts/repository.json" content,
      repository_status := some "success" }
    match w.parseCatalog content with
    | some repo => (some repo, st1)
    | none => (none, { st1 with repository_status := some "failed" })

def artifactPath (al : String) : String := "/tmp/scripts/" ++ al ++ ".sh"

def outputPath (al : String) : String := "/tmp/scripts/" ++ al ++ "_output.txt"

/-- `download_script` (source lines 163-238): fetch the body, write the
artifact with the preamble prepended; a fetch failure re-raises. -/
def download_script (w : World) (al script_url : String) (st : RunState) :
    Except String (String × RunState) :=
  match w.fetch script_url with
  | .error e => .error e
  | .ok script_content =>
    .ok (artifactPath al,
      { st with files := setD st.files (artifactPath al) (materializeBody script_content) })

/-- What `execute_script` / the init block write to the output file
(source lines 271-275 and 413-417). -/
def outputFileContent (r : ExecResult) : String :=
  r.stdout ++ (if r.stderr != "" then "\n\nSTDERR:\n" ++ r.stderr else "")

/-- `execute_script` (source lines 240-283): bind parameters into the
environment and the flag string, run, capture output, truncate. -/
def execute_script (w : World) (al script_file : String)
    (params_map : List (String × String)) (st : RunState) :
    (Int × String) × RunState :=
  let ep := bindParams st.env params_map
  let r := w.exec (script_file ++ ep.2) ep.1
  let content := outputFileContent r
  let st1 := { st with
    env := ep.1,
    trace := st.trace ++ [({ file := script_file, argStr := ep.2, env := ep.1 } : TraceEntry)],
    files := setD st.files (outputPath al) content }
  ((r.exitCode, truncate20 content), st1)

def errorRecord (msg : String) : ScriptRecord := { status := "error", error := some msg }

def execRecord (code : Int) (out : String) : ScriptRecord :=
  { status := if code = 0 then "success" else "failed",
    exit_code := some code, output := some out }

/-- One iteration of the per-alias loop of `download_and_execute_scripts`
(source lines 322-386).  `if not script_url` treats both a missing catalog
entry and an empty URL as "No URL found"; the only exception that can reach
the `except` arm is the `download_script` re-raise. -/
def processAlias (w : World) (repo : List (String × String))
    (script_parameters : List (String × List (String × String)))
    (st : RunState) (al : String) : RunState :=
  match (lookupD repo al).map convertGithubUrl with
  | none =>
    { st with scripts := setD st.scripts al (errorRecord "No URL found for alias") }
  | some u =>
    if u == "" then
      { st with scripts := setD st.scripts al (errorRecord "No URL found for alias") }
    else
      match download_script w al u st with
      | .error e => { st with scripts := setD st.scripts al (errorRecord e) }
      | .ok fs =>
        let params := (lookupD script_parameters al).getD []
        let res := execute_script w al fs.1 params fs.2
        { res.2 with scripts := setD res.2.scripts al (execRecord res.1.1 res.1.2) }

/-- `download_and_execute_scripts` (source lines 285-386).  Note the Python
`if not repository: return` also skips on an *empty* parsed catalog. -/
def download_and_execute_scripts (w : World) (args : Args) (st : RunState) : RunState :=
  if args.scripts_repository_url == "" then st
  else if args.script_aliases == "" then st
  else
    let rs := download_repository w args.scripts_repository_url st
    match rs.1 with
    | none => rs.2
    | some repo =>
      if repo.isEmpty then rs.2
      else
        let script_parameters := (w.parseParams args.script_parameters).getD []
        (pySplitWs args.script_aliases).foldl (processAlias w repo script_parameters) rs.2

/-- The init-script block (source lines 398-433): the body is written
verbatim, run once with no arguments, and recorded under the reserved
`init_script` key. -/
def runInit (w : World) (args : Args) (st : RunState) : RunState :=
  if pyStrip args.init_script != "" then
    let st1 := { st with files := setD st.files "/tmp/custom_init.sh" args.init_script }
    let r := w.exec "/tmp/custom_init.sh" st1.env
    let content := outputFileContent r
    let st2 := { st1 with
      trace := st1.trace ++ [({ file := "/tmp/custom_init.sh", argStr := "", env := st1.env } : TraceEntry)],
      files := setD st1.files "/tmp/init_script_output.txt" content }
    { st2 with init_record := some (execRecord r.exitCode (truncate20 content)) }
  else st

/-- The pipeline part of the main program (source lines 71-437): the script
stage when both the catalog URL and the alias list are non-empty, then the
init script, then the completion marker.  `env0` is the process environment
the pipeline starts from. -/
def runMain (w : World) (args : Args) (env0 : List (String × String)) : RunState :=
  let st0 : RunState := { env := env0, files := [], scripts := [] }
  let st1 :=
    if args.scripts_repository_url != "" && args.script_aliases != "" then
      download_and_execute_scripts w args st0
    else st0
  let st2 := runInit w args st1
  { st2 with files := setD st2.files "/tmp/user_data_complete" "" }

/-! ### Dictionary lemmas -/

theorem lookupD_setD_self {α : Type} (d : List (String × α)) (k : String) (v : α) :
    lookupD (setD d k v) k = some v := by
  induction d with
  | nil => simp [setD, lookupD]
  | cons p ps ih =>
    by_cases h : p.1 = k
    · simp [setD, lookupD, h]
    · simp only [setD, lookupD, beq_iff_eq, h, if_false, if_neg h]
      exact ih

theorem lookupD_setD_ne {α : Type} (d : List (String × α)) (k k' : String) (v : α)
    (h : k' ≠ k) : lookupD (setD d k v) k' = lookupD d k' := by
  induction d with
  | nil => simp [setD, lookupD, Ne.symm h]
  | cons p ps ih =>
    by_cases hp : p.1 = k
    · subst hp
      simp only [setD, beq_self_eq_true, if_true, lookupD, beq_iff_eq]
      simp [Ne.symm h]
    · simp only [setD, lookupD, beq_iff_eq, hp, if_false]
      by_cases hk' : p.1 = k'
      · simp [hk']
      · simp [hk', ih]

/-! ### Path disjointness lemmas -/

theorem string_eq_of_data {a b : String} (h : a.data = b.data) : a = b := String.ext h

theorem data_ne_imp_ne {a b : String} (h : a.data ≠ b.data) : a ≠ b :=
  fun hh => h (congrArg String.data hh)

/-- Writing under `/tmp/scripts/` never collides with a path that does not
start with those 13 characters. -/
theorem scriptsPath_ne_outside (x lit : String)
    (hlit : lit.data.take 13 ≠ "/tmp/scripts/".data) :
    "/tmp/scripts/" ++ x ≠ lit := by
  intro h
  apply hlit
  have hd : ("/tmp/scripts/" ++ x).data = lit.data := congrArg String.data h
  rw [String.data_append] at hd
  have h13 : ("/tmp/scripts/".data).length = 13 := by decide
  calc lit.data.take 13 = ("/tmp/scripts/".data ++ x.data).take 13 := by rw [hd]
    _ = ("/tmp/scripts/".data ++ x.data).take ("/tmp/scripts/".data).length := by rw [h13]
    _ = "/tmp/scripts/".data := List.take_left _ _

/-- Two `/tmp/scripts/` paths with different final characters differ. -/
theorem scriptsPath_ne_of_getLast (x y sufx sufy : String) (cx cy : Char)
    (hx : sufx.data.getLast? = some cx) (hy : sufy.data.getLast? = some cy)
    (hne : cx ≠ cy) :
    "/tmp/scripts/" ++ x ++ sufx ≠ "/tmp/scripts/" ++ y ++ sufy := by
  intro h
  have hL := congrArg (fun s : String => s.data.getLast?) h
  simp only [String.data_append, List.getLast?_append, hx, hy] at hL
  simp only [Option.or] at hL
  exact hne (Option.some.inj hL)

theorem artifactPath_inj {a b : String} (h : artifactPath a = artifactPath b) : a = b := by
  have hd := congrArg String.data h
  simp only [artifactPath, String.data_append, List.append_assoc] at hd
  have := List.append_cancel_left hd
  exact string_eq_of_data (List.append_cancel_right this)

theorem outputPath_inj {a b : String} (h : outputPath a = outputPath b) : a = b := by
  have hd := congrArg String.data h
  simp only [outputPath, String.data_append, List.append_assoc] at hd
  have := List.append_cancel_left hd
  exact string_eq_of_data (List.append_cancel_right this)

theorem artifactPath_ne_outputPath (a b : String) : artifactPath a ≠ outputPath b := by
  simp only [artifactPath, outputPath]
  exact scriptsPath_ne_of_getLast a b ".sh" "_output.txt" 'h' 't'
    (by decide) (by decide) (by decide)

theorem artifactPath_ne_repoFile (a : String) :
    artifactPath a ≠ "/tmp/scripts/repository.json" := by
  have : "/tmp/scripts/repository.json" = "/tmp/scripts/" ++ "repository" ++ ".json" := by decide
  rw [artifactPath, this]
  exact scriptsPath_ne_of_getLast a "repository" ".sh" ".json" 'h' 'n'
    (by decide) (by decide) (by decide)

theorem outputPath_ne_repoFile (a : String) :
    outputPath a ≠ "/tmp/scripts/repository.json" := by
  have : "/tmp/scripts/repository.json" = "/tmp/scripts/" ++ "repository" ++ ".json" := by decide
  rw [outputPath, this]
  exact scriptsPath_ne_of_getLast a "repository" "_output.txt" ".json" 't' 'n'
    (by decide) (by decide) (by decide)

theorem artifactPath_ne_custom_init (a : String) : artifactPath a ≠ "/tmp/custom_init.sh" := by
  rw [artifactPath, String.append_assoc]
  exact scriptsPath_ne_outside _ _ (by decide)

theorem artifactPath_ne_init_output (a : String) :
    artifactPath a ≠ "/tmp/init_script_output.txt" := by
  rw [artifactPath, String.append_assoc]
  exact scriptsPath_ne_outside _ _ (by decide)

theorem artifactPath_ne_marker (a : String) : artifactPath a ≠ "/tmp/user_data_complete" := by
  rw [artifactPath, String.append_assoc]
  exact scriptsPath_ne_outside _ _ (by decide)

theorem outputPath_ne_custom_init (a : String) : outputPath a ≠ "/tmp/custom_init.sh" := by
  rw [outputPath, String.append_assoc]
  exact scriptsPath_ne_outside _ _ (by decide)

theorem outputPath_ne_init_output (a : String) :
    outputPath a ≠ "/tmp/init_script_output.txt" := by
  rw [outputPath, String.append_assoc]
  exact scriptsPath_ne_outside _ _ (by decide)

theorem outputPath_ne_marker (a : String) : outputPath a ≠ "/tmp/user_data_complete" := by
  rw [outputPath, String.append_assoc]
  exact scriptsPath_ne_outside _ _ (by decide)

/-! ### Lemmas about `splitNl` and `joinNl` -/

theorem splitNl_ne_nil : ∀ l : List Char, splitNl l ≠ []
  | [] => by simp [splitNl]
  | c :: cs => by
    simp only [splitNl]
    split
    · simp
    · split <;> simp

theorem joinNl_cons (l : List Char) (L : List (List Char)) (h : L ≠ []) :
    joinNl (l :: L) = l ++ '\n' :: joinNl L := by
  cases L with
  | nil => exact absurd rfl h
  | cons m ms => rfl

theorem joinNl_cons_cons (c : Char) (t : List Char) (ts : List (List Char)) :
    joinNl ((c :: t) :: ts) = c :: joinNl (t :: ts) := by
  cases ts with
  | nil => rfl
  | cons m ms => rfl

theorem joinNl_splitNl : ∀ l : List Char, joinNl (splitNl l) = l
  | [] => rfl
  | c :: cs => by
    simp only [splitNl]
    by_cases h : c = '\n'
    · rw [if_pos h, joinNl_cons _ _ (splitNl_ne_nil cs), joinNl_splitNl cs, h]
      rfl
    · rw [if_neg h]
      cases heq : splitNl cs with
      | nil => exact absurd heq (splitNl_ne_nil cs)
      | cons t ts =>
        rw [joinNl_cons_cons, ← heq, joinNl_splitNl cs]

theorem splitNl_no_nl : ∀ l : List Char, '\n' ∉ l → splitNl l = [l]
  | [] => fun _ => rfl
  | c :: cs => fun h => by
    have hc : ¬ (c = '\n') := fun hh => h (hh ▸ List.mem_cons_self c cs)
    have hcs : '\n' ∉ cs := fun hh => h (List.mem_cons_of_mem c hh)
    simp only [splitNl, if_neg hc, splitNl_no_nl cs hcs]

theorem splitNl_append_cons : ∀ l1 l2 : List Char, '\n' ∉ l1 →
    splitNl (l1 ++ '\n' :: l2) = l1 :: splitNl l2
  | [], l2 => fun _ => by simp [splitNl]
  | c :: l1, l2 => fun h => by
    have hc : ¬ (c = '\n') := fun hh => h (hh ▸ List.mem_cons_self c l1)
    have hl1 : '\n' ∉ l1 := fun hh => h (List.mem_cons_of_mem c hh)
    simp only [List.cons_append, List.append_eq, splitNl, if_neg hc,
      splitNl_append_cons l1 l2 hl1]

theorem head_splitNl_no_nl : ∀ l : List Char, '\n' ∉ (splitNl l).headD []
  | [] => by simp [splitNl]
  | c :: cs => by
    simp only [splitNl]
    by_cases h : c = '\n'
    · simp [h]
    · rw [if_neg h]
      cases heq : splitNl cs with
      | nil =>
        intro hmem
        simp at hmem
        exact h hmem.symm
      | cons t ts =>
        have ih := head_splitNl_no_nl cs
        rw [heq] at ih
        simp only [List.headD_cons] at ih ⊢
        intro hmem
        rcases List.mem_cons.mp hmem with h1 | h2
        · exact h h1.symm
        · exact ih h2

theorem splitNl_joinNl : ∀ P : List (List Char), P ≠ [] → (∀ p ∈ P, '\n' ∉ p) →
    splitNl (joinNl P) = P
  | [], h, _ => absurd rfl h
  | [p], _, hP => by
    simp only [joinNl]
    exact splitNl_no_nl p (hP p (List.mem_singleton.mpr rfl))
  | p :: q :: P, _, hP => by
    rw [joinNl_cons _ _ (by simp)]
    rw [splitNl_append_cons _ _ (hP p (List.mem_cons_self _ _))]
    rw [splitNl_joinNl (q :: P) (by simp) (fun x hx => hP x (List.mem_cons_of_mem _ hx))]

theorem paramHelper_splitNl : splitNl paramHelper.data = paramHelperParts := by
  show splitNl (joinNl paramHelperParts) = paramHelperParts
  exact splitNl_joinNl paramHelperParts (by simp [paramHelperParts]) (by decide)

theorem dropFirstLine_paramHelper :
    dropFirstLine paramHelper = String.mk (joinNl paramHelperParts.tail) := by
  rw [dropFirstLine, paramHelper_splitNl]

/-- The preamble is exactly its own shebang line, a newline, and the rest. -/
theorem paramHelper_decomp : paramHelper = "#!/bin/bash\n" ++ dropFirstLine paramHelper := by
  apply string_eq_of_data
  rw [dropFirstLine_paramHelper, String.data_append]
  show joinNl paramHelperParts = "#!/bin/bash\n".data ++ joinNl paramHelperParts.tail
  have htail : paramHelperParts.tail ≠ [] := by
    intro hh
    exact absurd (congrArg List.length hh) (by decide)
  have h0 : paramHelperParts = "#!/bin/bash".data :: paramHelperParts.tail := rfl
  conv_lhs => rw [h0]
  rw [joinNl_cons _ _ htail]
  have h2 : "#!/bin/bash\n".data = "#!/bin/bash".data ++ ['\n'] := by decide
  rw [h2, List.append_assoc, List.singleton_append]

/-! ### Lemmas about `readLines` and `truncate20` -/

/-- A newline can occur only as the final character. -/
def nlOnlyAtEnd (l : List Char) : Prop := ∀ c ∈ l.dropLast, c ≠ '\n'

/-- The shape of a `readlines` result: nonempty pieces, newlines only final,
and every piece except possibly the last ends in a newline. -/
def chunksOK : List (List Char) → Prop
  | [] => True
  | l :: rest => l ≠ [] ∧ nlOnlyAtEnd l ∧ (rest = [] ∨ l.getLast? = some '\n') ∧ chunksOK rest

theorem dropLast_cons_ne_nil (c : Char) (t : List Char) (h : t ≠ []) :
    (c :: t).dropLast = c :: t.dropLast := by
  cases t with
  | nil => exact absurd rfl h
  | cons m ms => rfl

theorem getLast?_cons_ne_nil (c : Char) (t : List Char) (h : t ≠ []) :
    (c :: t).getLast? = t.getLast? := by
  cases t with
  | nil => exact absurd rfl h
  | cons m ms => exact List.getLast?_cons_cons

theorem readLines_chunksOK : ∀ l : List Char, chunksOK (readLines l)
  | [] => True.intro
  | c :: cs => by
    simp only [readLines]
    by_cases h : c = '\n'
    · rw [if_pos h]
      refine ⟨by simp, ?_, Or.inr rfl, readLines_chunksOK cs⟩
      intro x hx
      simp at hx
    · rw [if_neg h]
      cases heq : readLines cs with
      | nil =>
        refine ⟨by simp, ?_, Or.inl rfl, trivial⟩
        intro x hx
        simp at hx
      | cons t ts =>
        have ih := readLines_chunksOK cs
        rw [heq] at ih
        obtain ⟨ht, hnl, hend, hrest⟩ := ih
        refine ⟨by simp, ?_, ?_, hrest⟩
        · intro x hx
          rw [dropLast_cons_ne_nil c t ht] at hx
          rcases List.mem_cons.mp hx with h1 | h2
          · exact h1 ▸ h
          · exact hnl x h2
        · rcases hend with h1 | h2
          · exact Or.inl h1
          · exact Or.inr ((getLast?_cons_ne_nil c t ht) ▸ h2)

theorem readLines_cons_ne (c : Char) (xs : List Char) (hc : ¬ c = '\n') :
    readLines (c :: xs) = match readLines xs with
      | [] => [[c]]
      | t :: ts => (c :: t) :: ts := by
  rw [readLines, if_neg hc]

theorem readLines_line_append : ∀ l r : List Char, l ≠ [] → nlOnlyAtEnd l →
    l.getLast? = some '\n' → readLines (l ++ r) = l :: readLines r
  | [], _, h, _, _ => absurd rfl h
  | [c], r, _, _, hlast => by
    have : c = '\n' := by simpa [List.getLast?] using hlast
    subst this
    simp [readLines]
  | c :: d :: t, r, _, hnl, hlast => by
    have hc : ¬ (c = '\n') := by
      have : c ∈ (c :: d :: t).dropLast := by
        rw [dropLast_cons_ne_nil c (d :: t) (by simp)]
        exact List.mem_cons_self _ _
      exact hnl c this
    have hnl' : nlOnlyAtEnd (d :: t) := by
      intro x hx
      apply hnl
      rw [dropLast_cons_ne_nil c (d :: t) (by simp)]
      exact List.mem_cons_of_mem c hx
    have hlast' : (d :: t).getLast? = some '\n' := by
      rw [← getLast?_cons_ne_nil c (d :: t) (by simp)]
      exact hlast
    have ih := readLines_line_append (d :: t) r (by simp) hnl' hlast'
    rw [List.cons_append, readLines_cons_ne c _ hc, ih]

theorem readLines_single : ∀ l : List Char, l ≠ [] → nlOnlyAtEnd l → readLines l = [l]
  | [], h, _ => absurd rfl h
  | [c], _, _ => by
    by_cases h : c = '\n'
    · simp [readLines, h]
    · simp [readLines, h]
  | c :: d :: t, _, hnl => by
    have hc : ¬ (c = '\n') := by
      have : c ∈ (c :: d :: t).dropLast := by
        rw [dropLast_cons_ne_nil c (d :: t) (by simp)]
        exact List.mem_cons_self _ _
      exact hnl c this
    have hnl' : nlOnlyAtEnd (d :: t) := by
      intro x hx
      apply hnl
      rw [dropLast_cons_ne_nil c (d :: t) (by simp)]
      exact List.mem_cons_of_mem c hx
    have ih := readLines_single (d :: t) (by simp) hnl'
    rw [readLines_cons_ne c _ hc, ih]

theorem readLines_flatten_of_chunks : ∀ L : List (List Char), chunksOK L →
    readLines L.flatten = L
  | [], _ => rfl
  | l :: rest, h => by
    obtain ⟨hne, hnl, hend, hrest⟩ := h
    rcases hend with h1 | h2
    · subst h1
      simp only [List.flatten, List.append_nil]
      exact readLines_single l hne hnl
    · simp only [List.flatten]
      rw [readLines_line_append l rest.flatten hne hnl h2]
      rw [readLines_flatten_of_chunks rest hrest]

theorem chunksOK_take : ∀ (n : Nat) (L : List (List Char)), chunksOK L →
    chunksOK (L.take n)
  | 0, L, _ => by simp [chunksOK]
  | n + 1, [], _ => True.intro
  | n + 1, l :: rest, h => by
    obtain ⟨hne, hnl, hend, hrest⟩ := h
    refine ⟨hne, hnl, ?_, chunksOK_take n rest hrest⟩
    rcases hend with h1 | h2
    · exact Or.inl (by simp [h1])
    · exact Or.inr h2

/-- The truncated output never exceeds 20 lines. -/
theorem numLines_truncate20 (s : String) : numLines (truncate20 s) ≤ 20 := by
  unfold numLines truncate20
  show (readLines ((readLines s.data).take 20).flatten).length ≤ 20
  rw [readLines_flatten_of_chunks _ (chunksOK_take 20 _ (readLines_chunksOK s.data))]
  calc ((readLines s.data).take 20).length ≤ 20 := List.length_take_le _ _

/-! ### Case analysis of `processAlias` -/

/-- The per-alias parameter map, `script_parameters.get(alias, {})`. -/
def paramsFor (P : List (String × List (String × String))) (al : String) :
    List (String × String) :=
  (lookupD P al).getD []

/-- The environment updates of the parameter loop. -/
def applyEnv (env : List (String × String)) (ps : List (String × String)) :
    List (String × String) :=
  ps.foldl (fun e p => setD e p.1 p.2) env

/-- The state `processAlias` produces on the happy path, with `body` the
fetched script content. -/
def runAliasExec (w : World) (P : List (String × List (String × String)))
    (st : RunState) (al body : String) : RunState :=
  let ep := bindParams st.env (paramsFor P al)
  let r := w.exec (artifactPath al ++ ep.2) ep.1
  let content := outputFileContent r
  { env := ep.1,
    files := setD (setD st.files (artifactPath al) (materializeBody body))
      (outputPath al) content,
    scripts := setD st.scripts al (execRecord r.exitCode (truncate20 content)),
    repository_status := st.repository_status,
    init_record := st.init_record,
    trace := st.trace ++
      [({ file := artifactPath al, argStr := ep.2, env := ep.1 } : TraceEntry)] }

theorem processAlias_of_none (w : World) (repo : List (String × String))
    (P : List (String × List (String × String))) (st : RunState) (al : String)
    (h : lookupD repo al = none) :
    processAlias w repo P st al =
      { st with scripts := setD st.scripts al (errorRecord "No URL found for alias") } := by
  simp [processAlias, h]

theorem processAlias_of_empty (w : World) (repo : List (String × String))
    (P : List (String × List (String × String))) (st : RunState) (al u : String)
    (h : lookupD repo al = some u) (he : convertGithubUrl u = "") :
    processAlias w repo P st al =
      { st with scripts := setD st.scripts al (errorRecord "No URL found for alias") } := by
  simp [processAlias, h, he]

theorem processAlias_of_fetch_error (w : World) (repo : List (String × String))
    (P : List (String × List (String × String))) (st : RunState) (al u e : String)
    (h : lookupD repo al = some u) (hne : convertGithubUrl u ≠ "")
    (hf : w.fetch (convertGithubUrl u) = .error e) :
    processAlias w repo P st al =
      { st with scripts := setD st.scripts al (errorRecord e) } := by
  simp [processAlias, h, hne, download_script, hf]

theorem processAlias_of_fetch_ok (w : World) (repo : List (String × String))
    (P : List (String × List (String × String))) (st : RunState) (al u body : String)
    (h : lookupD repo al = some u) (hne : convertGithubUrl u ≠ "")
    (hf : w.fetch (convertGithubUrl u) = .ok body) :
    processAlias w repo P st al = runAliasExec w P st al body := by
  simp [processAlias, h, hne, download_script, hf, execute_script, runAliasExec, paramsFor]

/-- Every `processAlias` step either records an error leaving everything but
the report untouched, or runs the happy path. -/
theorem processAlias_cases (w : World) (repo : List (String × String))
    (P : List (String × List (String × String))) (st : RunState) (al : String) :
    (∃ msg, processAlias w repo P st al =
      { st with scripts := setD st.scripts al (errorRecord msg) }) ∨
    (∃ body, processAlias w repo P st al = runAliasExec w P st al body) := by
  cases h : lookupD repo al with
  | none => exact Or.inl ⟨_, processAlias_of_none w repo P st al h⟩
  | some u =>
    by_cases he : convertGithubUrl u = ""
    · exact Or.inl ⟨_, processAlias_of_empty w repo P st al u h he⟩
    · cases hf : w.fetch (convertGithubUrl u) with
      | error e => exact Or.inl ⟨_, processAlias_of_fetch_error w repo P st al u e h he hf⟩
      | ok body => exact Or.inr ⟨_, processAlias_of_fetch_ok w repo P st al u body h he hf⟩

/-! ### Parameter-binder lemmas -/

theorem bindParams_fst : ∀ (ps : List (String × String)) (env : List (String × String))
    (s0 : String),
    (ps.foldl (fun acc p => (setD acc.1 p.1 p.2, acc.2 ++ flagToken p.1 p.2)) (env, s0)).1 =
      applyEnv env ps
  | [], _, _ => rfl
  | p :: ps, env, s0 => by
    simp only [List.foldl_cons, applyEnv]
    exact bindParams_fst ps (setD env p.1 p.2) (s0 ++ flagToken p.1 p.2)

theorem bindParams_env (env : List (String × String)) (ps : List (String × String)) :
    (bindParams env ps).1 = applyEnv env ps :=
  bindParams_fst ps env ""

theorem applyEnv_lookup_of_absent : ∀ (ps : List (String × String))
    (env : List (String × String)) (n : String), (∀ p ∈ ps, p.1 ≠ n) →
    lookupD (applyEnv env ps) n = lookupD env n
  | [], _, _, _ => rfl
  | p :: ps, env, n, h => by
    simp only [applyEnv, List.foldl_cons]
    rw [show (ps.foldl (fun e q => setD e q.1 q.2) (setD env p.1 p.2)) =
        applyEnv (setD env p.1 p.2) ps from rfl]
    rw [applyEnv_lookup_of_absent ps _ n (fun q hq => h q (List.mem_cons_of_mem p hq))]
    exact lookupD_setD_ne env p.1 n p.2 (fun hh => h p (List.mem_cons_self p ps) hh.symm)

theorem applyEnv_append (env : List (String × String)) (ps qs : List (String × String)) :
    applyEnv env (ps ++ qs) = applyEnv (applyEnv env ps) qs := by
  simp [applyEnv, List.foldl_append]

theorem applyEnv_lookup_of_last (env : List (String × String))
    (ps1 ps2 : List (String × String)) (n v : String) (h2 : ∀ p ∈ ps2, p.1 ≠ n) :
    lookupD (applyEnv env (ps1 ++ (n, v) :: ps2)) n = some v := by
  rw [applyEnv_append]
  rw [show applyEnv (applyEnv env ps1) ((n, v) :: ps2) =
      applyEnv (setD (applyEnv env ps1) n v) ps2 from rfl]
  rw [applyEnv_lookup_of_absent ps2 _ n h2]
  exact lookupD_setD_self _ n v

/-! ### Frame lemmas for one `processAlias` step -/

theorem processAlias_scripts_ne (w : World) (repo : List (String × String))
    (P : List (String × List (String × String))) (st : RunState) (al a : String)
    (hne : al ≠ a) :
    lookupD (processAlias w repo P st al).scripts a = lookupD st.scripts a := by
  rcases processAlias_cases w repo P st al with ⟨msg, hq⟩ | ⟨body, hq⟩
  · rw [hq]
    exact lookupD_setD_ne _ _ _ _ (Ne.symm hne)
  · rw [hq]
    show lookupD (setD st.scripts al _) a = _
    exact lookupD_setD_ne _ _ _ _ (Ne.symm hne)

theorem processAlias_env_cases (w : World) (repo : List (String × String))
    (P : List (String × List (String × String))) (st : RunState) (al : String) :
    (processAlias w repo P st al).env = st.env ∨
    (processAlias w repo P st al).env = applyEnv st.env (paramsFor P al) := by
  rcases processAlias_cases w repo P st al with ⟨msg, hq⟩ | ⟨body, hq⟩
  · rw [hq]
    exact Or.inl rfl
  · rw [hq]
    exact Or.inr (bindParams_env st.env (paramsFor P al))

theorem processAlias_env_of_absent (w : World) (repo : List (String × String))
    (P : List (String × List (String × String))) (st : RunState) (al n : String)
    (h : ∀ p ∈ paramsFor P al, p.1 ≠ n) :
    lookupD (processAlias w repo P st al).env n = lookupD st.env n := by
  rcases processAlias_env_cases w repo P st al with hq | hq
  · rw [hq]
  · rw [hq]
    exact applyEnv_lookup_of_absent _ _ _ h

theorem processAlias_trace_cases (w : World) (repo : List (String × String))
    (P : List (String × List (String × String))) (st : RunState) (al : String) :
    (processAlias w repo P st al).trace = st.trace ∨
    ∃ e : TraceEntry, e.file = artifactPath al ∧
      (processAlias w repo P st al).trace = st.trace ++ [e] := by
  rcases processAlias_cases w repo P st al with ⟨msg, hq⟩ | ⟨body, hq⟩
  · rw [hq]
    exact Or.inl rfl
  · rw [hq]
    exact Or.inr ⟨_, rfl, rfl⟩

theorem processAlias_init_record (w : World) (repo : List (String × String))
    (P : List (String × List (String × String))) (st : RunState) (al : String) :
    (processAlias w repo P st al).init_record = st.init_record := by
  rcases processAlias_cases w repo P st al with ⟨msg, hq⟩ | ⟨body, hq⟩
  · rw [hq]
  · rw [hq]
    rfl

theorem processAlias_repository_status (w : World) (repo : List (String × String))
    (P : List (String × List (String × String))) (st : RunState) (al : String) :
    (processAlias w repo P st al).repository_status = st.repository_status := by
  rcases processAlias_cases w repo P st al with ⟨msg, hq⟩ | ⟨body, hq⟩
  · rw [hq]
  · rw [hq]
    rfl

theorem processAlias_files_ne (w : World) (repo : List (String × String))
    (P : List (String × List (String × String))) (st : RunState) (al p : String)
    (hpa : p ≠ artifactPath al) (hpo : p ≠ outputPath al) :
    lookupD (processAlias w repo P st al).files p = lookupD st.files p := by
  rcases processAlias_cases w repo P st al with ⟨msg, hq⟩ | ⟨body, hq⟩
  · rw [hq]
  · rw [hq]
    show lookupD (setD (setD st.files (artifactPath al) _) (outputPath al) _) p = _
    rw [lookupD_setD_ne _ _ _ _ hpo, lookupD_setD_ne _ _ _ _ hpa]

/-! ### Frame lemmas for the whole per-alias loop -/

theorem foldA_scripts_ne (w : World) (repo : List (String × String))
    (P : List (String × List (String × String))) :
    ∀ (l : List String) (st : RunState) (a : String), a ∉ l →
    lookupD (l.foldl (processAlias w repo P) st).scripts a = lookupD st.scripts a
  | [], _, _, _ => rfl
  | al :: l, st, a, h => by
    rw [List.foldl_cons]
    rw [foldA_scripts_ne w repo P l _ a (fun hh => h (List.mem_cons_of_mem al hh))]
    exact processAlias_scripts_ne w repo P st al a (fun hh => h (hh ▸ List.mem_cons_self al l))

theorem foldA_env_of_absent (w : World) (repo : List (String × String))
    (P : List (String × List (String × String))) :
    ∀ (l : List String) (st : RunState) (n : String),
    (∀ al ∈ l, ∀ p ∈ paramsFor P al, p.1 ≠ n) →
    lookupD (l.foldl (processAlias w repo P) st).env n = lookupD st.env n
  | [], _, _, _ => rfl
  | al :: l, st, n, h => by
    rw [List.foldl_cons]
    rw [foldA_env_of_absent w repo P l _ n (fun b hb => h b (List.mem_cons_of_mem al hb))]
    exact processAlias_env_of_absent w repo P st al n (h al (List.mem_cons_self al l))

theorem foldA_trace_mono (w : World) (repo : List (String × String))
    (P : List (String × List (String × String))) :
    ∀ (l : List String) (st : RunState),
    ∃ t, (l.foldl (processAlias w repo P) st).trace = st.trace ++ t ∧
      ∀ e ∈ t, ∃ al', e.file = artifactPath al'
  | [], st => ⟨[], by simp⟩
  | al :: l, st => by
    rw [List.foldl_cons]
    obtain ⟨t, ht, hchar⟩ := foldA_trace_mono w repo P l (processAlias w repo P st al)
    rcases processAlias_trace_cases w repo P st al with hq | ⟨e, he, hq⟩
    · exact ⟨t, by rw [ht, hq], hchar⟩
    · refine ⟨e :: t, ?_, ?_⟩
      · rw [ht, hq, List.append_assoc, List.singleton_append]
      · intro x hx
        rcases List.mem_cons.mp hx with h1 | h2
        · exact ⟨al, h1 ▸ he⟩
        · exact hchar x h2

theorem foldA_init_record (w : World) (repo : List (String × String))
    (P : List (String × List (String × String))) :
    ∀ (l : List String) (st : RunState),
    (l.foldl (processAlias w repo P) st).init_record = st.init_record
  | [], _ => rfl
  | al :: l, st => by
    rw [List.foldl_cons, foldA_init_record w repo P l _,
      processAlias_init_record w repo P st al]

theorem foldA_repository_status (w : World) (repo : List (String × String))
    (P : List (String × List (String × String))) :
    ∀ (l : List String) (st : RunState),
    (l.foldl (processAlias w repo P) st).repository_status = st.repository_status
  | [], _ => rfl
  | al :: l, st => by
    rw [List.foldl_cons, foldA_repository_status w repo P l _,
      processAlias_repository_status w repo P st al]

/-! ### The loop on an alias that has no catalog entry -/

theorem foldA_noUrl_scripts (w : World) (repo : List (String × String))
    (P : List (String × List (String × String))) (a : String)
    (hlook : lookupD repo a = none) :
    ∀ (l : List String) (st : RunState),
    (a ∈ l ∨ lookupD st.scripts a = some (errorRecord "No URL found for alias")) →
    lookupD (l.foldl (processAlias w repo P) st).scripts a =
      some (errorRecord "No URL found for alias")
  | [], st, h => by
    rcases h with h1 | h2
    · simp at h1
    · exact h2
  | al :: l, st, h => by
    rw [List.foldl_cons]
    by_cases hal : al = a
    · subst hal
      apply foldA_noUrl_scripts w repo P al hlook l _
      refine Or.inr ?_
      rw [processAlias_of_none w repo P st al hlook]
      exact lookupD_setD_self _ al _
    · apply foldA_noUrl_scripts w repo P a hlook l _
      rcases h with h1 | h2
      · rcases List.mem_cons.mp h1 with h3 | h4
        · exact absurd h3.symm hal
        · exact Or.inl h4
      · refine Or.inr ?_
        rw [processAlias_scripts_ne w repo P st al a hal]
        exact h2

theorem foldA_noUrl_files (w : World) (repo : List (String × String))
    (P : List (String × List (String × String))) (a : String)
    (hlook : lookupD repo a = none) :
    ∀ (l : List String) (st : RunState),
    lookupD (l.foldl (processAlias w repo P) st).files (artifactPath a) =
      lookupD st.files (artifactPath a)
  | [], _ => rfl
  | al :: l, st => by
    rw [List.foldl_cons, foldA_noUrl_files w repo P a hlook l _]
    by_cases hal : al = a
    · subst hal
      rw [processAlias_of_none w repo P st al hlook]
    · exact processAlias_files_ne w repo P st al _
        (fun hh => hal (artifactPath_inj hh).symm)
        (artifactPath_ne_outputPath a al)

theorem foldA_noUrl_trace (w : World) (repo : List (String × String))
    (P : List (String × List (String × String))) (a : String)
    (hlook : lookupD repo a = none) :
    ∀ (l : List String) (st : RunState) (e : TraceEntry),
    e ∈ (l.foldl (processAlias w repo P) st).trace → e.file = artifactPath a →
    e ∈ st.trace
  | [], _, _, he, _ => he
  | al :: l, st, e, he, hfile => by
    rw [List.foldl_cons] at he
    have step := foldA_noUrl_trace w repo P a hlook l _ e he hfile
    by_cases hal : al = a
    · subst hal
      rw [processAlias_of_none w repo P st al hlook] at step
      exact step
    · rcases processAlias_trace_cases w repo P st al with hq | ⟨e', he', hq⟩
      · rw [hq] at step
        exact step
      · rw [hq] at step
        rcases List.mem_append.mp step with h1 | h2
        · exact h1
        · exfalso
          have he2 : e = e' := by simpa using h2
          exact hal (artifactPath_inj (by rw [← he', ← he2, hfile]))

/-! ### The loop on an alias whose catalog entry resolves and fetches -/

/-- A record produced by an actual execution: a verbatim exit code with the
status it determines, and a captured output. -/
def isExecRecord (o : Option ScriptRecord) : Prop :=
  ∃ c out, o = some (execRecord c out)

theorem foldA_exec_scripts (w : World) (repo : List (String × String))
    (P : List (String × List (String × String))) (b u body : String)
    (hlook : lookupD repo b = some u) (hne : convertGithubUrl u ≠ "")
    (hf : w.fetch (convertGithubUrl u) = .ok body) :
    ∀ (l : List String) (st : RunState),
    (b ∈ l ∨ isExecRecord (lookupD st.scripts b)) →
    isExecRecord (lookupD (l.foldl (processAlias w repo P) st).scripts b)
  | [], st, h => by
    rcases h with h1 | h2
    · simp at h1
    · exact h2
  | al :: l, st, h => by
    rw [List.foldl_cons]
    by_cases hal : al = b
    · subst hal
      apply foldA_exec_scripts w repo P al u body hlook hne hf l _
      refine Or.inr ?_
      rw [processAlias_of_fetch_ok w repo P st al u body hlook hne hf]
      show isExecRecord (lookupD (setD st.scripts al _) al)
      rw [lookupD_setD_self]
      exact ⟨_, _, rfl⟩
    · apply foldA_exec_scripts w repo P b u body hlook hne hf l _
      rcases h with h1 | h2
      · rcases List.mem_cons.mp h1 with h3 | h4
        · exact absurd h3.symm hal
        · exact Or.inl h4
      · refine Or.inr ?_
        rw [processAlias_scripts_ne w repo P st al b hal]
        exact h2

/-! ### The output-truncation invariant (for every record in the report,
the stored output is the 20-line truncation of the captured output file) -/

def outInv (st : RunState) : Prop :=
  ∀ a r o, lookupD st.scripts a = some r → r.output = some o →
    ∃ full, lookupD st.files (outputPath a) = some full ∧ o = truncate20 full

def initInv (st : RunState) : Prop :=
  ∀ r o, st.init_record = some r → r.output = some o →
    ∃ full, lookupD st.files "/tmp/init_script_output.txt" = some full ∧ o = truncate20 full

theorem processAlias_outInv (w : World) (repo : List (String × String))
    (P : List (String × List (String × String))) (st : RunState) (al : String)
    (h : outInv st) : outInv (processAlias w repo P st al) := by
  rcases processAlias_cases w repo P st al with ⟨msg, hq⟩ | ⟨body, hq⟩
  · rw [hq]
    intro a r o hr ho
    by_cases hal : al = a
    · subst hal
      rw [show lookupD (setD st.scripts al (errorRecord msg)) al =
          some (errorRecord msg) from lookupD_setD_self _ _ _] at hr
      rw [(Option.some.inj hr).symm] at ho
      exact absurd ho (by simp [errorRecord])
    · rw [show lookupD (setD st.scripts al (errorRecord msg)) a =
          lookupD st.scripts a from lookupD_setD_ne _ _ _ _ (Ne.symm hal)] at hr
      exact h a r o hr ho
  · rw [hq]
    intro a r o hr ho
    by_cases hal : al = a
    · subst hal
      rw [show lookupD (runAliasExec w P st al body).scripts al =
          some (execRecord _ _) from lookupD_setD_self _ _ _] at hr
      have hrec := (Option.some.inj hr).symm
      rw [hrec] at ho
      have hout : o = truncate20 (outputFileContent
          (w.exec (artifactPath al ++ (bindParams st.env (paramsFor P al)).2)
            (bindParams st.env (paramsFor P al)).1)) := by
        simpa [execRecord] using ho.symm
      refine ⟨_, ?_, hout⟩
      show lookupD (setD (setD st.files (artifactPath al) _) (outputPath al) _)
        (outputPath al) = _
      rw [lookupD_setD_self]
    · rw [show lookupD (runAliasExec w P st al body).scripts a =
          lookupD st.scripts a from lookupD_setD_ne _ _ _ _ (Ne.symm hal)] at hr
      obtain ⟨full, hfull, hout⟩ := h a r o hr ho
      refine ⟨full, ?_, hout⟩
      show lookupD (setD (setD st.files (artifactPath al) _) (outputPath al) _)
        (outputPath a) = _
      rw [lookupD_setD_ne _ _ _ _ (fun hh => hal (outputPath_inj hh.symm)),
        lookupD_setD_ne _ _ _ _ (Ne.symm (artifactPath_ne_outputPath al a))]
      exact hfull

theorem processAlias_initInv (w : World) (repo : List (String × String))
    (P : List (String × List (String × String))) (st : RunState) (al : String)
    (h : initInv st) : initInv (processAlias w repo P st al) := by
  rcases processAlias_cases w repo P st al with ⟨msg, hq⟩ | ⟨body, hq⟩
  · rw [hq]
    exact h
  · rw [hq]
    intro r o hr ho
    obtain ⟨full, hfull, hout⟩ := h r o hr ho
    refine ⟨full, ?_, hout⟩
    show lookupD (setD (setD st.files (artifactPath al) _) (outputPath al) _)
      "/tmp/init_script_output.txt" = _
    rw [lookupD_setD_ne _ _ _ _ (Ne.symm (outputPath_ne_init_output al)),
      lookupD_setD_ne _ _ _ _ (Ne.symm (artifactPath_ne_init_output al))]
    exact hfull

theorem foldA_outInv (w : World) (repo : List (String × String))
    (P : List (String × List (String × String))) :
    ∀ (l : List String) (st : RunState), outInv st →
    outInv (l.foldl (processAlias w repo P) st)
  | [], _, h => h
  | al :: l, st, h => by
    rw [List.foldl_cons]
    exact foldA_outInv w repo P l _ (processAlias_outInv w repo P st al h)

theorem foldA_initInv (w : World) (repo : List (String × String))
    (P : List (String × List (String × String))) :
    ∀ (l : List String) (st : RunState), initInv st →
    initInv (l.foldl (processAlias w repo P) st)
  | [], _, h => h
  | al :: l, st, h => by
    rw [List.foldl_cons]
    exact foldA_initInv w repo P l _ (processAlias_initInv w repo P st al h)

/-! ### Structure of the whole run -/

/-- The process state the pipeline starts from. -/
def startState (env0 : List (String × String)) : RunState :=
  { env := env0, files := [], scripts := [] }

/-- The state after the script stage, before the init-script block. -/
def preInit (w : World) (args : Args) (env0 : List (String × String)) : RunState :=
  if args.scripts_repository_url != "" && args.script_aliases != "" then
    download_and_execute_scripts w args (startState env0)
  else startState env0

theorem runMain_eq (w : World) (args : Args) (env0 : List (String × String)) :
    runMain w args env0 =
      { runInit w args (preInit w args env0) with
        files := setD (runInit w args (preInit w args env0)).files
          "/tmp/user_data_complete" "" } := rfl

/-- The state the init-script block produces when the body is non-blank. -/
def initExecState (w : World) (args : Args) (st : RunState) : RunState :=
  let r := w.exec "/tmp/custom_init.sh" st.env
  let content := outputFileContent r
  { st with
    files := setD (setD st.files "/tmp/custom_init.sh" args.init_script)
      "/tmp/init_script_output.txt" content,
    trace := st.trace ++
      [({ file := "/tmp/custom_init.sh", argStr := "", env := st.env } : TraceEntry)],
    init_record := some (execRecord r.exitCode (truncate20 content)) }

theorem runInit_of_blank (w : World) (args : Args) (st : RunState)
    (h : pyStrip args.init_script = "") : runInit w args st = st := by
  simp [runInit, h]

theorem runInit_of_nonblank (w : World) (args : Args) (st : RunState)
    (h : pyStrip args.init_script ≠ "") :
    runInit w args st = initExecState w args st := by
  simp [runInit, h, initExecState]

theorem dae_exec_eq (w : World) (args : Args) (st : RunState)
    (content : String) (repo : List (String × String))
    (hurl : args.scripts_repository_url ≠ "") (hal : args.script_aliases ≠ "")
    (hf : w.fetch args.scripts_repository_url = .ok content)
    (hp : w.parseCatalog content = some repo) (hrepo : repo ≠ []) :
    download_and_execute_scripts w args st =
      (pySplitWs args.script_aliases).foldl
        (processAlias w repo ((w.parseParams args.script_parameters).getD []))
        { st with
          files := setD st.files "/tmp/scripts/repository.json" content,
          repository_status := some "success" } := by
  have hre : repo.isEmpty = false := by
    cases repo with
    | nil => exact absurd rfl hrepo
    | cons x xs => rfl
  simp [download_and_execute_scripts, download_repository, hf, hp, hurl, hal, hre]

theorem dae_parsefail_eq (w : World) (args : Args) (st : RunState) (content : String)
    (hurl : args.scripts_repository_url ≠ "") (hal : args.script_aliases ≠ "")
    (hf : w.fetch args.scripts_repository_url = .ok content)
    (hp : w.parseCatalog content = none) :
    download_and_execute_scripts w args st =
      { st with
        files := setD st.files "/tmp/scripts/repository.json" content,
        repository_status := some "failed" } := by
  simp [download_and_execute_scripts, download_repository, hf, hp, hurl, hal]

theorem dae_emptycat_eq (w : World) (args : Args) (st : RunState) (content : String)
    (hurl : args.scripts_repository_url ≠ "") (hal : args.script_aliases ≠ "")
    (hf : w.fetch args.scripts_repository_url = .ok content)
    (hp : w.parseCatalog content = some []) :
    download_and_execute_scripts w args st =
      { st with
        files := setD st.files "/tmp/scripts/repository.json" content,
        repository_status := some "success" } := by
  simp [download_and_execute_scripts, download_repository, hf, hp, hurl, hal]

/-- Every trace entry added by the script stage is the invocation of some
alias's artifact. -/
theorem dae_trace (w : World) (args : Args) (st : RunState) :
    ∃ t, (download_and_execute_scripts w args st).trace = st.trace ++ t ∧
      ∀ e ∈ t, ∃ al', e.file = artifactPath al' := by
  by_cases hurl : args.scripts_repository_url = ""
  · exact ⟨[], by simp [download_and_execute_scripts, hurl]⟩
  · by_cases hal : args.script_aliases = ""
    · exact ⟨[], by simp [download_and_execute_scripts, hurl, hal]⟩
    · cases hf : w.fetch args.scripts_repository_url with
      | error e =>
        refine ⟨[], ?_, by simp⟩
        simp [download_and_execute_scripts, download_repository, hurl, hal, hf]
      | ok content =>
        cases hp : w.parseCatalog content with
        | none =>
          refine ⟨[], ?_, by simp⟩
          rw [dae_parsefail_eq w args st content hurl hal hf hp]
          simp
        | some repo =>
          cases hrepo : repo with
          | nil =>
            refine ⟨[], ?_, by simp⟩
            rw [dae_emptycat_eq w args st content hurl hal hf (hrepo ▸ hp)]
            simp
          | cons x xs =>
            rw [dae_exec_eq w args st content repo hurl hal hf hp (by simp [hrepo])]
            obtain ⟨t, ht, hchar⟩ := foldA_trace_mono w repo
              ((w.parseParams args.script_parameters).getD [])
              (pySplitWs args.script_aliases)
              { st with
                files := setD st.files "/tmp/scripts/repository.json" content,
                repository_status := some "success" }
            exact ⟨t, by rw [ht], hchar⟩

theorem dae_init_record (w : World) (args : Args) (st : RunState) :
    (download_and_execute_scripts w args st).init_record = st.init_record := by
  by_cases hurl : args.scripts_repository_url = ""
  · simp [download_and_execute_scripts, hurl]
  · by_cases hal : args.script_aliases = ""
    · simp [download_and_execute_scripts, hurl, hal]
    · cases hf : w.fetch args.scripts_repository_url with
      | error e =>
        simp [download_and_execute_scripts, download_repository, hurl, hal, hf]
      | ok content =>
        cases hp : w.parseCatalog content with
        | none => rw [dae_parsefail_eq w args st content hurl hal hf hp]
        | some repo =>
          cases hrepo : repo with
          | nil => rw [dae_emptycat_eq w args st content hurl hal hf (hrepo ▸ hp)]
          | cons x xs =>
            rw [dae_exec_eq w args st content repo hurl hal hf hp (by simp [hrepo])]
            rw [foldA_init_record]

theorem dae_outInv (w : World) (args : Args) (st : RunState)
    (h : outInv st) : outInv (download_and_execute_scripts w args st) := by
  by_cases hurl : args.scripts_repository_url = ""
  · simpa [download_and_execute_scripts, hurl] using h
  · by_cases hal : args.script_aliases = ""
    · simpa [download_and_execute_scripts, hurl, hal] using h
    · have hrepoInv : ∀ content : String,
          outInv { st with
            files := setD st.files "/tmp/scripts/repository.json" content,
            repository_status := some "failed" } ∧
          outInv { st with
            files := setD st.files "/tmp/scripts/repository.json" content,
            repository_status := some "success" } := by
        intro content
        constructor <;>
        · intro a r o hr ho
          obtain ⟨full, hfull, hout⟩ := h a r o hr ho
          refine ⟨full, ?_, hout⟩
          show lookupD (setD st.files "/tmp/scripts/repository.json" content)
            (outputPath a) = some full
          rw [lookupD_setD_ne _ _ _ _ (outputPath_ne_repoFile a)]
          exact hfull
      cases hf : w.fetch args.scripts_repository_url with
      | error e =>
        have heq : download_and_execute_scripts w args st =
            { st with repository_status := some "failed" } := by
          simp [download_and_execute_scripts, download_repository, hurl, hal, hf]
        rw [heq]
        intro a r o hr ho
        exact h a r o hr ho
      | ok content =>
        cases hp : w.parseCatalog content with
        | none =>
          rw [dae_parsefail_eq w args st content hurl hal hf hp]
          exact (hrepoInv content).1
        | some repo =>
          cases hrepo : repo with
          | nil =>
            rw [dae_emptycat_eq w args st content hurl hal hf (hrepo ▸ hp)]
            exact (hrepoInv content).2
          | cons x xs =>
            rw [dae_exec_eq w args st content repo hurl hal hf hp (by simp [hrepo])]
            exact foldA_outInv _ _ _ _ _ (hrepoInv content).2

theorem dae_initInv (w : World) (args : Args) (st : RunState)
    (h : initInv st) : initInv (download_and_execute_scripts w args st) := by
  by_cases hurl : args.scripts_repository_url = ""
  · simpa [download_and_execute_scripts, hurl] using h
  · by_cases hal : args.script_aliases = ""
    · simpa [download_and_execute_scripts, hurl, hal] using h
    · have hrepoInv : ∀ (content : String) (s : Option String),
          initInv { st with
            files := setD st.files "/tmp/scripts/repository.json" content,
            repository_status := s } := by
        intro content s r o hr ho
        obtain ⟨full, hfull, hout⟩ := h r o hr ho
        refine ⟨full, ?_, hout⟩
        show lookupD (setD st.files "/tmp/scripts/repository.json" content)
          "/tmp/init_script_output.txt" = some full
        rw [lookupD_setD_ne _ _ _ _ (by decide)]
        exact hfull
      cases hf : w.fetch args.scripts_repository_url with
      | error e =>
        have heq : download_and_execute_scripts w args st =
            { st with repository_status := some "failed" } := by
          simp [download_and_execute_scripts, download_repository, hurl, hal, hf]
        rw [heq]
        intro r o hr ho
        exact h r o hr ho
      | ok content =>
        cases hp : w.parseCatalog content with
        | none =>
          rw [dae_parsefail_eq w args st content hurl hal hf hp]
          exact hrepoInv content _
        | some repo =>
          cases hrepo : repo with
          | nil =>
            rw [dae_emptycat_eq w args st content hurl hal hf (hrepo ▸ hp)]
            exact hrepoInv content _
          | cons x xs =>
            rw [dae_exec_eq w args st content repo hurl hal hf hp (by simp [hrepo])]
            exact foldA_initInv _ _ _ _ _ (hrepoInv content _)

/-! ### Frame lemmas for the init-script block -/

theorem runInit_scripts (w : World) (args : Args) (st : RunState) :
    (runInit w args st).scripts = st.scripts := by
  by_cases h : pyStrip args.init_script = ""
  · rw [runInit_of_blank w args st h]
  · rw [runInit_of_nonblank w args st h]
    rfl

theorem runInit_repository_status (w : World) (args : Args) (st : RunState) :
    (runInit w args st).repository_status = st.repository_status := by
  by_cases h : pyStrip args.init_script = ""
  · rw [runInit_of_blank w args st h]
  · rw [runInit_of_nonblank w args st h]
    rfl

theorem runInit_env (w : World) (args : Args) (st : RunState) :
    (runInit w args st).env = st.env := by
  by_cases h : pyStrip args.init_script = ""
  · rw [runInit_of_blank w args st h]
  · rw [runInit_of_nonblank w args st h]
    rfl

theorem runInit_trace_mono (w : World) (args : Args) (st : RunState) :
    ∃ t, (runInit w args st).trace = st.trace ++ t ∧
      ∀ e ∈ t, e.file = "/tmp/custom_init.sh" := by
  by_cases h : pyStrip args.init_script = ""
  · rw [runInit_of_blank w args st h]
    exact ⟨[], by simp, by simp⟩
  · rw [runInit_of_nonblank w args st h]
    refine ⟨_, rfl, ?_⟩
    intro e he
    rw [List.mem_singleton.mp he]

theorem runInit_files_ne (w : World) (args : Args) (st : RunState) (p : String)
    (h1 : p ≠ "/tmp/custom_init.sh") (h2 : p ≠ "/tmp/init_script_output.txt") :
    lookupD (runInit w args st).files p = lookupD st.files p := by
  by_cases h : pyStrip args.init_script = ""
  · rw [runInit_of_blank w args st h]
  · rw [runInit_of_nonblank w args st h]
    show lookupD (setD (setD st.files "/tmp/custom_init.sh" _)
      "/tmp/init_script_output.txt" _) p = _
    rw [lookupD_setD_ne _ _ _ _ h2, lookupD_setD_ne _ _ _ _ h1]

theorem runInit_outInv (w : World) (args : Args) (st : RunState)
    (h : outInv st) : outInv (runInit w args st) := by
  intro a r o hr ho
  rw [runInit_scripts w args st] at hr
  obtain ⟨full, hfull, hout⟩ := h a r o hr ho
  refine ⟨full, ?_, hout⟩
  rw [runInit_files_ne w args st _ (outputPath_ne_custom_init a) (outputPath_ne_init_output a)]
  exact hfull

theorem runInit_initInv (w : World) (args : Args) (st : RunState)
    (h : initInv st) : initInv (runInit w args st) := by
  by_cases hb : pyStrip args.init_script = ""
  · rw [runInit_of_blank w args st hb]
    exact h
  · rw [runInit_of_nonblank w args st hb]
    intro r o hr ho
    have hrec : r = execRecord (w.exec "/tmp/custom_init.sh" st.env).exitCode
        (truncate20 (outputFileContent (w.exec "/tmp/custom_init.sh" st.env))) :=
      (Option.some.inj hr).symm
    rw [hrec] at ho
    have hout : o = truncate20 (outputFileContent (w.exec "/tmp/custom_init.sh" st.env)) := by
      simpa [execRecord] using ho.symm
    refine ⟨_, ?_, hout⟩
    show lookupD (setD (setD st.files "/tmp/custom_init.sh" _)
      "/tmp/init_script_output.txt" _) "/tmp/init_script_output.txt" = _
    rw [lookupD_setD_self]

theorem startState_outInv (env0 : List (String × String)) : outInv (startState env0) := by
  intro a r o hr _
  simp [startState, lookupD] at hr

theorem startState_initInv (env0 : List (String × String)) : initInv (startState env0) := by
  intro r o hr _
  simp [startState] at hr

/-! ### The flag-token string built by the parameter loop -/

theorem str_append_empty (s : String) : s ++ "" = s :=
  string_eq_of_data (by simp [String.data_append])

theorem str_empty_append (s : String) : "" ++ s = s :=
  string_eq_of_data (by simp [String.data_append])

/-- The argument string is the concatenation of one token per parameter,
in order. -/
def tokensStr : List (String × String) → String
  | [] => ""
  | p :: ps => flagToken p.1 p.2 ++ tokensStr ps

theorem bindParams_snd_aux : ∀ (ps : List (String × String))
    (env : List (String × String)) (s0 : String),
    (ps.foldl (fun acc p => (setD acc.1 p.1 p.2, acc.2 ++ flagToken p.1 p.2)) (env, s0)).2 =
      s0 ++ tokensStr ps
  | [], _, s0 => (str_append_empty s0).symm
  | p :: ps, env, s0 => by
    simp only [List.foldl_cons]
    rw [bindParams_snd_aux ps (setD env p.1 p.2) (s0 ++ flagToken p.1 p.2)]
    rw [String.append_assoc]
    rfl

theorem bindParams_args (env : List (String × String)) (ps : List (String × String)) :
    (bindParams env ps).2 = tokensStr ps := by
  rw [bindParams, bindParams_snd_aux ps env "", str_empty_append]

theorem tokensStr_contains : ∀ (ps : List (String × String)) (n v : String),
    (n, v) ∈ ps → ∃ pre post, tokensStr ps = pre ++ (flagToken n v ++ post)
  | [], _, _, h => absurd h (List.not_mem_nil _)
  | p :: ps, n, v, h => by
    rcases List.mem_cons.mp h with h1 | h2
    · refine ⟨"", tokensStr ps, ?_⟩
      rw [str_empty_append, ← h1]
      rfl
    · obtain ⟨pre, post, heq⟩ := tokensStr_contains ps n v h2
      refine ⟨flagToken p.1 p.2 ++ pre, post, ?_⟩
      rw [show tokensStr (p :: ps) = flagToken p.1 p.2 ++ tokensStr ps from rfl, heq,
        String.append_assoc]

/-! ### The claims -/

/-- C2: the artifact preamble is claimed to bind `--name value` and
`--name=value` alike to the uppercased, underscored variable with exactly the
given value.  The code disagrees on the single-token form: the preamble's
`case --*)` arm never splits at `=`, so `--retry-count=3` (what
`execute_script` itself passes) makes `declare -g` re-split the word
`RETRY_COUNT=3=true` and bind `RETRY_COUNT` to `"3=true"`, not `"3"`; the
two-token form and the positional `PARAM1`, `PARAM2`, ... bindings do work
as claimed. -/
theorem C2_equals_form_misparsed :
    getVar (parse_parameters ["--retry-count=3"]) "RETRY_COUNT" = some "3=true" ∧
    getVar (parse_parameters ["--retry-count=3"]) "RETRY_COUNT" ≠ some "3" ∧
    getVar (parse_parameters ["--retry-count", "3"]) "RETRY_COUNT" = some "3" ∧
    getVar (parse_parameters ["x", "y"]) "PARAM1" = some "x" ∧
    getVar (parse_parameters ["x", "y"]) "PARAM2" = some "y" :=
  ⟨by decide, by decide, by decide, by decide, by decide⟩

/-- C8: for every parameter of an alias's parameter set, the binder produces
the environment assignment under the canonical name unchanged and a
command-line flag token in lowercase hyphenated form with the value quoted,
both carrying the same value. -/
theorem C8_binder_thm (env : List (String × String)) (ps : List (String × String))
    (n v : String) (hnodup : (ps.map Prod.fst).Nodup) (hmem : (n, v) ∈ ps) :
    lookupD (bindParams env ps).1 n = some v ∧
    ∃ pre post, (bindParams env ps).2 =
      pre ++ ((" --" ++ kebabCase n ++ "=\"" ++ v ++ "\"") ++ post) := by
  constructor
  · rw [bindParams_env]
    obtain ⟨s, t, hsplit⟩ := List.append_of_mem hmem
    have ht : ∀ p ∈ t, p.1 ≠ n := by
      intro p hp hh
      have hnd := hnodup
      rw [hsplit] at hnd
      simp only [List.map_append, List.map_cons] at hnd
      have h2 := (List.nodup_append.mp hnd).2.1
      have hmem' : n ∉ t.map Prod.fst := (List.nodup_cons.mp h2).1
      exact hmem' (hh ▸ List.mem_map_of_mem Prod.fst hp)
    rw [hsplit]
    exact applyEnv_lookup_of_last env s t n v ht
  · rw [bindParams_args]
    exact tokensStr_contains ps n v hmem

/-- C8 witness: the spec's example parameter `retry_count=3`. -/
theorem C8_witness :
    kebabCase "retry_count" = "retry-count" ∧
    (lookupD (bindParams [] [("retry_count", "3")]).1 "retry_count" = some "3" ∧
      ∃ pre post, (bindParams [] [("retry_count", "3")]).2 =
        pre ++ ((" --" ++ kebabCase "retry_count" ++ "=\"" ++ "3" ++ "\"") ++ post)) :=
  ⟨by decide, C8_binder_thm [] [("retry_count", "3")] "retry_count" "3"
    (by decide) (by decide)⟩

/-- C9: the claim says only the hosting-page path segments are substituted
and the rest of the URL is left unchanged.  The code uses global
`str.replace`, so a browsable URL for the file `dir/blob/x.sh` (a repository
directory named `blob`) also has its second `/blob/` collapsed: the claimed
result keeps `dir/blob/x.sh`, the code produces `dir/x.sh`. -/
theorem C9_counterexample :
    convertGithubUrl "https://github.com/u/r/blob/main/dir/blob/x.sh" =
      "https://raw.githubusercontent.com/u/r/main/dir/x.sh" ∧
    convertGithubUrl "https://github.com/u/r/blob/main/dir/blob/x.sh" ≠
      "https://raw.githubusercontent.com/u/r/main/dir/blob/x.sh" :=
  ⟨by decide, by decide⟩

/-- C9 amended: the conversion is a global substring substitution — every
occurrence of `github.com` becomes the raw host and every `/blob/` becomes
`/` — applied before fetching; URLs already naming the raw host are left
unchanged, and on URLs where each marker occurs exactly once (the spec's
example) it coincides with the claimed segment substitution. -/
theorem C9_amended_thm :
    (∀ u : String, strContains u "raw.githubusercontent.com" = true →
      convertGithubUrl u = u) ∧
    convertGithubUrl "https://github.com/o/r/blob/main/x.sh" =
      "https://raw.githubusercontent.com/o/r/main/x.sh" := by
  constructor
  · intro u h
    simp [convertGithubUrl, h]
  · decide

/-- C9 witness: a raw-host URL passes through unchanged. -/
theorem C9_witness :
    convertGithubUrl "https://raw.githubusercontent.com/o/r/main/x.sh" =
      "https://raw.githubusercontent.com/o/r/main/x.sh" :=
  C9_amended_thm.1 "https://raw.githubusercontent.com/o/r/main/x.sh" (by decide)

/-- C10: a fetched body that begins with an interpreter directive keeps that
exact directive as the artifact's first line, the preamble's own directive
line is dropped, and the artifact continues with the preamble remainder and
the rest of the body; a body with no directive gets the full preamble (with
its directive) prepended. -/
theorem C10_shebang_thm :
    (∀ body : String, strStartsWith body "#!" = true →
      materializeBody body =
        pyFirstLine body ++ "\n" ++ dropFirstLine paramHelper ++
          String.mk (joinNl (splitNl body.data).tail) ∧
      pyFirstLine (materializeBody body) = pyFirstLine body) ∧
    paramHelper = "#!/bin/bash\n" ++ dropFirstLine paramHelper ∧
    (∀ body : String, strStartsWith body "#!" = false →
      materializeBody body = paramHelper ++ body) := by
  refine ⟨?_, paramHelper_decomp, ?_⟩
  · intro body h
    have hmat : materializeBody body =
        pyFirstLine body ++ "\n" ++ dropFirstLine paramHelper ++
          String.mk (joinNl (splitNl body.data).tail) := by
      rw [materializeBody, if_pos h]
    refine ⟨hmat, ?_⟩
    rw [hmat]
    have hnl : '\n' ∉ (pyFirstLine body).data := head_splitNl_no_nl body.data
    apply string_eq_of_data
    show (splitNl (pyFirstLine body ++ "\n" ++ dropFirstLine paramHelper ++
      String.mk (joinNl (splitNl body.data).tail)).data).headD [] = (pyFirstLine body).data
    have hdata : (pyFirstLine body ++ "\n" ++ dropFirstLine paramHelper ++
        String.mk (joinNl (splitNl body.data).tail)).data =
        (pyFirstLine body).data ++ '\n' ::
          ((dropFirstLine paramHelper).data ++ joinNl (splitNl body.data).tail) := by
      simp only [String.data_append, List.append_assoc]
      rfl
    rw [hdata, splitNl_append_cons _ _ hnl]
    rfl
  · intro body h
    rw [materializeBody, if_neg (by rw [h]; exact Bool.false_ne_true)]

/-- C10 witness: a concrete body with a `#!/bin/sh` directive. -/
theorem C10_witness :
    materializeBody "#!/bin/sh\necho hi" =
      pyFirstLine "#!/bin/sh\necho hi" ++ "\n" ++ dropFirstLine paramHelper ++
        String.mk (joinNl (splitNl "#!/bin/sh\necho hi".data).tail) ∧
    pyFirstLine (materializeBody "#!/bin/sh\necho hi") = pyFirstLine "#!/bin/sh\necho hi" :=
  C10_shebang_thm.1 "#!/bin/sh\necho hi" (by decide)

/-! ### Concrete worlds used by the run-level witnesses -/

/-- A catalog with one alias (`b`), one parameterized script, a fetchable
body, and a clean 2-line execution. -/
def wDemo : World :=
  { fetch := fun u =>
      if u == "http://catalog" then .ok "CAT"
      else if u == "http://scripts/b.sh" then .ok "echo hi"
      else .error "HTTP Error 404: Not Found",
    parseCatalog := fun s =>
      if s == "CAT" then some [("b", "http://scripts/b.sh")] else none,
    parseParams := fun _ => some [("b", [("retry_count", "3")])],
    exec := fun _ _ => { stdout := "hello\nworld\n", stderr := "", exitCode := 0 } }

def argsDemo : Args :=
  { scripts_repository_url := "http://catalog", script_aliases := "a b",
    init_script := " echo hi " }

/-- A world whose catalog content is retrievable but not valid JSON. -/
def wBadJson : World :=
  { fetch := fun _ => .ok "not json",
    parseCatalog := fun _ => none,
    parseParams := fun _ => none,
    exec := fun _ _ => { stdout := "", stderr := "", exitCode := 0 } }

def argsBadJson : Args :=
  { scripts_repository_url := "http://catalog", script_aliases := "a",
    init_script := "echo init" }

/-- A world whose catalog parses to the empty JSON object. -/
def wEmptyCat : World :=
  { fetch := fun _ => .ok "\x7b\x7d",
    parseCatalog := fun s => if s == "\x7b\x7d" then some [] else none,
    parseParams := fun _ => none,
    exec := fun _ _ => { stdout := "", stderr := "", exitCode := 0 } }

def argsEmptyCat : Args :=
  { scripts_repository_url := "http://catalog", script_aliases := "a" }

/-- A run with only an init script. -/
def wInitOnly : World :=
  { fetch := fun _ => .error "unused",
    parseCatalog := fun _ => none,
    parseParams := fun _ => none,
    exec := fun _ _ => { stdout := "ok\n", stderr := "", exitCode := 0 } }

def argsInitOnly : Args := { init_script := "echo hi" }

/-- Two catalog aliases where the first declares the parameter `FOO=1` and
the second declares nothing. -/
def wEnvDemo : World :=
  { fetch := fun u => if u == "http://catalog" then .ok "CAT" else .ok "echo hi",
    parseCatalog := fun s =>
      if s == "CAT" then some [("a", "http://ua"), ("b", "http://ub")] else none,
    parseParams := fun _ => some [("a", [("FOO", "1")])],
    exec := fun _ _ => { stdout := "", stderr := "", exitCode := 0 } }

def argsEnvDemo : Args :=
  { scripts_repository_url := "http://catalog", script_aliases := "a b" }

/-- C5: when the catalog content is retrieved but is not valid JSON, the
repository-status flag ends "failed", `download_repository` returns an
absent catalog to its caller (it catches the decode error), and the rest of
the pipeline — init script, completion marker — still completes, with no
script executed. -/
theorem C5_parse_failure_thm (w : World) (args : Args) (env0 : List (String × String))
    (content : String)
    (hurl : args.scripts_repository_url ≠ "") (hal : args.script_aliases ≠ "")
    (hf : w.fetch args.scripts_repository_url = .ok content)
    (hp : w.parseCatalog content = none) :
    (∀ st : RunState, (download_repository w args.scripts_repository_url st).1 = none ∧
      (download_repository w args.scripts_repository_url st).2.repository_status =
        some "failed") ∧
    (runMain w args env0).repository_status = some "failed" ∧
    (runMain w args env0).scripts = [] ∧
    lookupD (runMain w args env0).files "/tmp/user_data_complete" = some "" ∧
    (pyStrip args.init_script ≠ "" → ∃ r, (runMain w args env0).init_record = some r) := by
  have hcond : (args.scripts_repository_url != "" && args.script_aliases != "") = true := by
    simp [hurl, hal]
  have hpre : preInit w args env0 =
      { startState env0 with
        files := setD (startState env0).files "/tmp/scripts/repository.json" content,
        repository_status := some "failed" } := by
    rw [preInit, if_pos hcond]
    exact dae_parsefail_eq w args (startState env0) content hurl hal hf hp
  refine ⟨?_, ?_, ?_, ?_, ?_⟩
  · intro st
    constructor
    · simp [download_repository, hf, hp]
    · simp [download_repository, hf, hp]
  · rw [runMain_eq]
    show (runInit w args (preInit w args env0)).repository_status = some "failed"
    rw [runInit_repository_status, hpre]
  · rw [runMain_eq]
    show (runInit w args (preInit w args env0)).scripts = []
    rw [runInit_scripts, hpre]
    rfl
  · rw [runMain_eq]
    show lookupD (setD (runInit w args (preInit w args env0)).files
      "/tmp/user_data_complete" "") "/tmp/user_data_complete" = some ""
    exact lookupD_setD_self _ _ _
  · intro hb
    rw [runMain_eq]
    show ∃ r, (runInit w args (preInit w args env0)).init_record = some r
    rw [runInit_of_nonblank w args _ hb]
    exact ⟨_, rfl⟩

/-- C5 witness: a retrievable catalog whose content is not JSON. -/
theorem C5_witness :
    (∀ st : RunState,
      (download_repository wBadJson argsBadJson.scripts_repository_url st).1 = none ∧
      (download_repository wBadJson argsBadJson.scripts_repository_url st).2.repository_status =
        some "failed") ∧
    (runMain wBadJson argsBadJson []).repository_status = some "failed" ∧
    (runMain wBadJson argsBadJson []).scripts = [] ∧
    lookupD (runMain wBadJson argsBadJson []).files "/tmp/user_data_complete" = some "" ∧
    (pyStrip argsBadJson.init_script ≠ "" →
      ∃ r, (runMain wBadJson argsBadJson []).init_record = some r) :=
  C5_parse_failure_thm wBadJson argsBadJson [] "not json"
    (by decide) (by decide) rfl rfl

/-- C7: for every executed script, alias or init, the output field stored in
its report record is the truncation of the captured output file to its first
20 lines, and so never exceeds 20 lines. -/
theorem C7_truncation_thm (w : World) (args : Args) (env0 : List (String × String)) :
    (∀ a r o, lookupD (runMain w args env0).scripts a = some r → r.output = some o →
      ∃ full, lookupD (runMain w args env0).files (outputPath a) = some full ∧
        o = truncate20 full ∧ numLines o ≤ 20) ∧
    (∀ r o, (runMain w args env0).init_record = some r → r.output = some o →
      ∃ full, lookupD (runMain w args env0).files "/tmp/init_script_output.txt" = some full ∧
        o = truncate20 full ∧ numLines o ≤ 20) := by
  have hpreOut : outInv (preInit w args env0) := by
    rw [preInit]
    by_cases hc : (args.scripts_repository_url != "" && args.script_aliases != "") = true
    · rw [if_pos hc]
      exact dae_outInv w args _ (startState_outInv env0)
    · rw [if_neg hc]
      exact startState_outInv env0
  have hpreInit : initInv (preInit w args env0) := by
    rw [preInit]
    by_cases hc : (args.scripts_repository_url != "" && args.script_aliases != "") = true
    · rw [if_pos hc]
      exact dae_initInv w args _ (startState_initInv env0)
    · rw [if_neg hc]
      exact startState_initInv env0
  have hOut : outInv (runInit w args (preInit w args env0)) :=
    runInit_outInv w args _ hpreOut
  have hInit : initInv (runInit w args (preInit w args env0)) :=
    runInit_initInv w args _ hpreInit
  constructor
  · intro a r o hr ho
    rw [runMain_eq] at hr
    obtain ⟨full, hfull, hoeq⟩ := hOut a r o hr ho
    refine ⟨full, ?_, hoeq, hoeq ▸ numLines_truncate20 full⟩
    rw [runMain_eq]
    show lookupD (setD (runInit w args (preInit w args env0)).files
      "/tmp/user_data_complete" "") (outputPath a) = some full
    rw [lookupD_setD_ne _ _ _ _ (outputPath_ne_marker a)]
    exact hfull
  · intro r o hr ho
    rw [runMain_eq] at hr
    obtain ⟨full, hfull, hoeq⟩ := hInit r o hr ho
    refine ⟨full, ?_, hoeq, hoeq ▸ numLines_truncate20 full⟩
    rw [runMain_eq]
    show lookupD (setD (runInit w args (preInit w args env0)).files
      "/tmp/user_data_complete" "") "/tmp/init_script_output.txt" = some full
    rw [lookupD_setD_ne _ _ _ _ (by decide)]
    exact hfull

/-- C7 witness: the executed alias `b` of the demo run. -/
theorem C7_witness :
    ∃ full, lookupD (runMain wDemo argsDemo []).files (outputPath "b") = some full ∧
      "hello\nworld\n" = truncate20 full ∧ numLines "hello\nworld\n" ≤ 20 :=
  (C7_truncation_thm wDemo argsDemo []).1 "b" (execRecord 0 "hello\nworld\n")
    "hello\nworld\n" (by decide) (by decide)

/-- C1: the claim promises an `error` record for every declared alias absent
from a successfully downloaded and parsed catalog.  A catalog that parses to
the *empty* JSON object is a counterexample: `if not repository` treats the
empty dict as absent and skips the whole loop, so the report has no record
for the alias at all even though the repository status is "success". -/
theorem C1_counterexample :
    (runMain wEmptyCat argsEmptyCat []).repository_status = some "success" ∧
    "a" ∈ pySplitWs argsEmptyCat.script_aliases ∧
    lookupD (runMain wEmptyCat argsEmptyCat []).scripts "a" = none :=
  ⟨by decide, by decide, by decide⟩

/-- C1 amended: when additionally the parsed catalog is non-empty, every
declared alias absent from it gets the record
`status = "error", error = "No URL found for alias"`, its artifact file is
never created, and its artifact is never executed. -/
theorem C1_amended_thm (w : World) (args : Args) (env0 : List (String × String))
    (content : String) (repo : List (String × String)) (a : String)
    (hurl : args.scripts_repository_url ≠ "") (hal : args.script_aliases ≠ "")
    (hf : w.fetch args.scripts_repository_url = .ok content)
    (hp : w.parseCatalog content = some repo) (hrepo : repo ≠ [])
    (ha : a ∈ pySplitWs args.script_aliases) (hlook : lookupD repo a = none) :
    lookupD (runMain w args env0).scripts a = some (errorRecord "No URL found for alias") ∧
    lookupD (runMain w args env0).files (artifactPath a) = none ∧
    ∀ e ∈ (runMain w args env0).trace, e.file ≠ artifactPath a := by
  have hcond : (args.scripts_repository_url != "" && args.script_aliases != "") = true := by
    simp [hurl, hal]
  have hpre : preInit w args env0 =
      (pySplitWs args.script_aliases).foldl
        (processAlias w repo ((w.parseParams args.script_parameters).getD []))
        { startState env0 with
          files := setD (startState env0).files "/tmp/scripts/repository.json" content,
          repository_status := some "success" } := by
    rw [preInit, if_pos hcond]
    exact dae_exec_eq w args (startState env0) content repo hurl hal hf hp hrepo
  refine ⟨?_, ?_, ?_⟩
  · rw [runMain_eq]
    show lookupD (runInit w args (preInit w args env0)).scripts a = _
    rw [runInit_scripts, hpre]
    exact foldA_noUrl_scripts w repo _ a hlook _ _ (Or.inl ha)
  · rw [runMain_eq]
    show lookupD (setD (runInit w args (preInit w args env0)).files
      "/tmp/user_data_complete" "") (artifactPath a) = none
    rw [lookupD_setD_ne _ _ _ _ (artifactPath_ne_marker a)]
    rw [runInit_files_ne w args _ _ (artifactPath_ne_custom_init a)
      (artifactPath_ne_init_output a)]
    rw [hpre, foldA_noUrl_files w repo _ a hlook _ _]
    show lookupD (setD (startState env0).files "/tmp/scripts/repository.json" content)
      (artifactPath a) = none
    rw [lookupD_setD_ne _ _ _ _ (artifactPath_ne_repoFile a)]
    rfl
  · intro e he hfile
    rw [runMain_eq] at he
    have he' : e ∈ (runInit w args (preInit w args env0)).trace := he
    obtain ⟨t2, ht2, hchar2⟩ := runInit_trace_mono w args (preInit w args env0)
    rw [ht2] at he'
    rcases List.mem_append.mp he' with h1 | h2
    · rw [hpre] at h1
      have h0 := foldA_noUrl_trace w repo _ a hlook _ _ e h1 hfile
      simp [startState] at h0
    · have := hchar2 e h2
      exact artifactPath_ne_custom_init a (hfile ▸ this)

/-- A demo world for the C1 witness: alias `a` is declared but absent from
the (non-empty) catalog. -/
def wC1Demo : World :=
  { fetch := fun u => if u == "http://catalog" then .ok "CAT" else .ok "echo hi",
    parseCatalog := fun s => if s == "CAT" then some [("b", "http://ub")] else none,
    parseParams := fun _ => none,
    exec := fun _ _ => { stdout := "", stderr := "", exitCode := 0 } }

def argsC1Demo : Args :=
  { scripts_repository_url := "http://catalog", script_aliases := "a b" }

/-- C1 witness: alias `a` absent from the catalog `(b -> http://ub)`. -/
theorem C1_witness :
    lookupD (runMain wC1Demo argsC1Demo []).scripts "a" =
      some (errorRecord "No URL found for alias") ∧
    lookupD (runMain wC1Demo argsC1Demo []).files (artifactPath "a") = none ∧
    ∀ e ∈ (runMain wC1Demo argsC1Demo []).trace, e.file ≠ artifactPath "a" :=
  C1_amended_thm wC1Demo argsC1Demo [] "CAT" [("b", "http://ub")] "a"
    (by decide) (by decide) rfl rfl (by decide) (by decide) rfl

/-- C6: for every declared alias whose catalog entry resolves to a non-empty
URL and whose body fetch succeeds, the final record carries a verbatim exit
code, its status is "success" exactly when that code is 0 and "failed"
otherwise, and it is never "error". -/
theorem C6_exit_code_thm (w : World) (args : Args) (env0 : List (String × String))
    (content : String) (repo : List (String × String)) (a u body : String)
    (hurl : args.scripts_repository_url ≠ "") (hal : args.script_aliases ≠ "")
    (hf : w.fetch args.scripts_repository_url = .ok content)
    (hp : w.parseCatalog content = some repo) (hrepo : repo ≠ [])
    (ha : a ∈ pySplitWs args.script_aliases)
    (hlook : lookupD repo a = some u) (hne : convertGithubUrl u ≠ "")
    (hfs : w.fetch (convertGithubUrl u) = .ok body) :
    ∃ c out, lookupD (runMain w args env0).scripts a = some (execRecord c out) ∧
      (execRecord c out).exit_code = some c ∧
      (execRecord c out).status = (if c = 0 then "success" else "failed") ∧
      (execRecord c out).status ≠ "error" := by
  have hcond : (args.scripts_repository_url != "" && args.script_aliases != "") = true := by
    simp [hurl, hal]
  have hpre : preInit w args env0 =
      (pySplitWs args.script_aliases).foldl
        (processAlias w repo ((w.parseParams args.script_parameters).getD []))
        { startState env0 with
          files := setD (startState env0).files "/tmp/scripts/repository.json" content,
          repository_status := some "success" } := by
    rw [preInit, if_pos hcond]
    exact dae_exec_eq w args (startState env0) content repo hurl hal hf hp hrepo
  have hrec : isExecRecord (lookupD (runMain w args env0).scripts a) := by
    rw [runMain_eq]
    show isExecRecord (lookupD (runInit w args (preInit w args env0)).scripts a)
    rw [runInit_scripts, hpre]
    exact foldA_exec_scripts w repo _ a u body hlook hne hfs _ _ (Or.inl ha)
  obtain ⟨c, out, heq⟩ := hrec
  refine ⟨c, out, heq, rfl, rfl, ?_⟩
  by_cases hc : c = 0
  · simp [execRecord, hc]
  · simp [execRecord, hc]

/-- C6 witness: the demo alias `b`, fetched and exiting 0. -/
theorem C6_witness :
    ∃ c out, lookupD (runMain wDemo argsDemo []).scripts "b" = some (execRecord c out) ∧
      (execRecord c out).exit_code = some c ∧
      (execRecord c out).status = (if c = 0 then "success" else "failed") ∧
      (execRecord c out).status ≠ "error" :=
  C6_exit_code_thm wDemo argsDemo [] "CAT" [("b", "http://scripts/b.sh")]
    "b" "http://scripts/b.sh" "echo hi"
    (by decide) (by decide) rfl rfl (by decide) (by decide) rfl (by decide) rfl

/-- C4: the claim says a supplied init script "is materialized with the
argument-parsing preamble" like a catalog alias.  It is not: the init block
writes the body verbatim to `/tmp/custom_init.sh` — the artifact on disk is
the body itself and differs from what the Materializer would produce. -/
theorem C4_counterexample :
    lookupD (runMain wInitOnly argsInitOnly []).files "/tmp/custom_init.sh" =
      some "echo hi" ∧
    materializeBody "echo hi" = paramHelper ++ "echo hi" ∧
    "echo hi" ≠ materializeBody "echo hi" := by
  refine ⟨by decide, ?_, ?_⟩
  · rw [materializeBody, if_neg (by decide)]
  · rw [materializeBody, if_neg (by decide)]
    decide

/-- C4 amended: a non-blank init script is written *verbatim* (no preamble,
no catalog lookup) to its own artifact, attempted exactly once, after every
alias execution, recorded under the reserved `init_record` slot separate
from the alias map, and its terminal outcome is "success" for exit code 0
and "failed" otherwise — `run_command` converts exceptions into an exit
result, so nothing unwinds out of the run. -/
theorem C4_amended_thm (w : World) (args : Args) (env0 : List (String × String))
    (h : pyStrip args.init_script ≠ "") :
    lookupD (runMain w args env0).files "/tmp/custom_init.sh" = some args.init_script ∧
    (∃ c out, (runMain w args env0).init_record = some (execRecord c out) ∧
      (execRecord c out).status = (if c = 0 then "success" else "failed") ∧
      ((execRecord c out).status = "success" ∨ (execRecord c out).status = "failed")) ∧
    (∃ pre env', (runMain w args env0).trace =
        pre ++ [({ file := "/tmp/custom_init.sh", argStr := "", env := env' } : TraceEntry)] ∧
      ∀ e ∈ pre, e.file ≠ "/tmp/custom_init.sh") := by
  have hinit := runInit_of_nonblank w args (preInit w args env0) h
  refine ⟨?_, ?_, ?_⟩
  · rw [runMain_eq]
    show lookupD (setD (runInit w args (preInit w args env0)).files
      "/tmp/user_data_complete" "") "/tmp/custom_init.sh" = some args.init_script
    rw [lookupD_setD_ne _ _ _ _ (by decide), hinit]
    show lookupD (setD (setD (preInit w args env0).files "/tmp/custom_init.sh"
      args.init_script) "/tmp/init_script_output.txt" _) "/tmp/custom_init.sh" = _
    rw [lookupD_setD_ne _ _ _ _ (by decide), lookupD_setD_self]
  · refine ⟨(w.exec "/tmp/custom_init.sh" (preInit w args env0).env).exitCode,
      truncate20 (outputFileContent (w.exec "/tmp/custom_init.sh"
        (preInit w args env0).env)), ?_, rfl, ?_⟩
    · rw [runMain_eq]
      show (runInit w args (preInit w args env0)).init_record = _
      rw [hinit]
      rfl
    · by_cases hc : (w.exec "/tmp/custom_init.sh" (preInit w args env0).env).exitCode = 0
      · exact Or.inl (by simp [execRecord, hc])
      · exact Or.inr (by simp [execRecord, hc])
  · refine ⟨(preInit w args env0).trace, (preInit w args env0).env, ?_, ?_⟩
    · rw [runMain_eq]
      show (runInit w args (preInit w args env0)).trace = _
      rw [hinit]
      rfl
    · intro e he hfile
      rw [preInit] at he
      by_cases hc : (args.scripts_repository_url != "" && args.script_aliases != "") = true
      · rw [if_pos hc] at he
        obtain ⟨t, ht, hchar⟩ := dae_trace w args (startState env0)
        rw [ht] at he
        rcases List.mem_append.mp he with h1 | h2
        · simp [startState] at h1
        · obtain ⟨al', hal'⟩ := hchar e h2
          exact artifactPath_ne_custom_init al' (hal' ▸ hfile)
      · rw [if_neg hc] at he
        simp [startState] at he

/-- C4 witness: the init-only demo run. -/
theorem C4_witness :
    lookupD (runMain wInitOnly argsInitOnly []).files "/tmp/custom_init.sh" =
      some argsInitOnly.init_script ∧
    (∃ c out, (runMain wInitOnly argsInitOnly []).init_record = some (execRecord c out) ∧
      (execRecord c out).status = (if c = 0 then "success" else "failed") ∧
      ((execRecord c out).status = "success" ∨ (execRecord c out).status = "failed")) ∧
    (∃ pre env', (runMain wInitOnly argsInitOnly []).trace =
        pre ++ [({ file := "/tmp/custom_init.sh", argStr := "", env := env' } : TraceEntry)] ∧
      ∀ e ∈ pre, e.file ≠ "/tmp/custom_init.sh") :=
  C4_amended_thm wInitOnly argsInitOnly [] (by decide)

/-- C3: an environment binding established by the parameter binder while one
alias is processed is never unset afterwards: a later alias whose own
parameter set does not re-declare the name is executed under an environment
that still carries the earlier value (the ambient-environment leak across
scripts).  `paramsFor P a = pa1 ++ (n, val) :: pa2` with `n` unbound in
`pa2` says `n` is bound to `val` by alias `a`; the trace entry for `b`
records the environment its subprocess inherited. -/
theorem C3_env_leak_thm (w : World) (args : Args) (env0 : List (String × String))
    (content : String) (repo : List (String × String))
    (a b ua ub bodyA bodyB n val : String)
    (l1 l2 l3 : List String) (pa1 pa2 : List (String × String))
    (hurl : args.scripts_repository_url ≠ "") (hal : args.script_aliases ≠ "")
    (hf : w.fetch args.scripts_repository_url = .ok content)
    (hp : w.parseCatalog content = some repo) (hrepo : repo ≠ [])
    (hsplit : pySplitWs args.script_aliases = l1 ++ a :: (l2 ++ b :: l3))
    (hlookA : lookupD repo a = some ua) (hneA : convertGithubUrl ua ≠ "")
    (hfA : w.fetch (convertGithubUrl ua) = .ok bodyA)
    (hlookB : lookupD repo b = some ub) (hneB : convertGithubUrl ub ≠ "")
    (hfB : w.fetch (convertGithubUrl ub) = .ok bodyB)
    (hpa : paramsFor ((w.parseParams args.script_parameters).getD []) a =
      pa1 ++ (n, val) :: pa2)
    (hpa2 : ∀ p ∈ pa2, p.1 ≠ n)
    (hl2 : ∀ c ∈ l2, ∀ p ∈ paramsFor ((w.parseParams args.script_parameters).getD []) c,
      p.1 ≠ n)
    (hpb : ∀ p ∈ paramsFor ((w.parseParams args.script_parameters).getD []) b, p.1 ≠ n) :
    ∃ e ∈ (runMain w args env0).trace,
      e.file = artifactPath b ∧ lookupD e.env n = some val := by
  have hcond : (args.scripts_repository_url != "" && args.script_aliases != "") = true := by
    simp [hurl, hal]
  set P := (w.parseParams args.script_parameters).getD [] with hP
  set stR : RunState :=
    { startState env0 with
      files := setD (startState env0).files "/tmp/scripts/repository.json" content,
      repository_status := some "success" } with hstR
  have hpre : preInit w args env0 =
      (pySplitWs args.script_aliases).foldl (processAlias w repo P) stR := by
    rw [preInit, if_pos hcond]
    exact dae_exec_eq w args (startState env0) content repo hurl hal hf hp hrepo
  -- unfold the loop around the two aliases of interest
  set st1 : RunState := l1.foldl (processAlias w repo P) stR with hst1
  set st2 : RunState := processAlias w repo P st1 a with hst2
  set st3 : RunState := l2.foldl (processAlias w repo P) st2 with hst3
  set st4 : RunState := processAlias w repo P st3 b with hst4
  have hfold : (pySplitWs args.script_aliases).foldl (processAlias w repo P) stR =
      l3.foldl (processAlias w repo P) st4 := by
    rw [hsplit, List.foldl_append, List.foldl_cons, List.foldl_append, List.foldl_cons]
  -- the environment after alias `a` binds `n` to `val`
  have henv2 : lookupD st2.env n = some val := by
    rw [hst2, processAlias_of_fetch_ok w repo P st1 a ua bodyA hlookA hneA hfA]
    show lookupD (bindParams st1.env (paramsFor P a)).1 n = some val
    rw [bindParams_env, hpa]
    exact applyEnv_lookup_of_last st1.env pa1 pa2 n val hpa2
  -- preserved through `l2`
  have henv3 : lookupD st3.env n = some val := by
    rw [hst3, foldA_env_of_absent w repo P l2 st2 n hl2]
    exact henv2
  -- the execution of `b` inherits it
  have hst4eq : st4 = runAliasExec w P st3 b bodyB := by
    rw [hst4]
    exact processAlias_of_fetch_ok w repo P st3 b ub bodyB hlookB hneB hfB
  set e : TraceEntry :=
    { file := artifactPath b, argStr := (bindParams st3.env (paramsFor P b)).2,
      env := (bindParams st3.env (paramsFor P b)).1 } with he
  have he4 : e ∈ st4.trace := by
    rw [hst4eq]
    show e ∈ st3.trace ++ [e]
    exact List.mem_append_right _ (List.mem_singleton.mpr rfl)
  have henvE : lookupD e.env n = some val := by
    show lookupD (bindParams st3.env (paramsFor P b)).1 n = some val
    rw [bindParams_env, applyEnv_lookup_of_absent _ _ _ hpb]
    exact henv3
  -- membership survives `l3`, the init block, and the completion marker
  obtain ⟨t5, ht5, _⟩ := foldA_trace_mono w repo P l3 st4
  obtain ⟨t6, ht6, _⟩ := runInit_trace_mono w args (preInit w args env0)
  refine ⟨e, ?_, rfl, henvE⟩
  rw [runMain_eq]
  show e ∈ (runInit w args (preInit w args env0)).trace
  rw [ht6, hpre, hfold, ht5]
  exact List.mem_append_left _ (List.mem_append_left _ he4)

/-- C3 witness: alias `a` binds `FOO=1`; alias `b` runs afterwards and its
inherited environment still maps `FOO` to `1`. -/
theorem C3_env_leak_witness :
    ∃ e ∈ (runMain wEnvDemo argsEnvDemo []).trace,
      e.file = artifactPath "b" ∧ lookupD e.env "FOO" = some "1" :=
  C3_env_leak_thm wEnvDemo argsEnvDemo [] "CAT" [("a", "http://ua"), ("b", "http://ub")]
    "a" "b" "http://ua" "http://ub" "echo hi" "echo hi" "FOO" "1"
    [] [] [] [] []
    (by decide) (by decide) rfl rfl (by decide) (by decide)
    rfl (by decide) rfl rfl (by decide) rfl
    (by decide) (by decide) (by decide) (by decide)

end UserData

